import Mathlib

/-!
# Chronos: job ingestion and dispatch pipeline

A shallow embedding of the Go packages `cache`, `worker`, `models` and of the
part of `service` that names a job, followed by the properties established
about them.

Conventions of the embedding.

* A Go `string` is a Lean `String` that holds its bytes, one character (code
  point 0 to 255) for each byte, so that ASCII text reads as it does in Go and
  `"\xff"` is the string of the single byte 255; the contents of a feed file,
  where byte offsets matter, are a `List Nat` of bytes.
* A Go `int` is an `Int`; the only arithmetic done on one is Redis's `HINCRBY`,
  whose signed 64-bit overflow check is kept.
* A `time.Time` is the instant it denotes, an `Int` count of nanoseconds
  counted from the zero `Time`; `Before` and `After` compare instants.
* Library code the repository calls but does not contain is either written out
  (decimal text, `bufio.ScanLines`, `filepath.Base`, `strings.TrimSuffix`, the
  Redis commands, the error stickiness of `json.Decoder`, the layout
  `time.RFC3339Nano` for instants in UTC) or passed in as a parameter (the
  text layout of instants in general, the JSON parser applied to the header
  line, the HTTP transport).
* A goroutine's loop over a channel is the function from the list of values it
  receives to the list of values it sends.
-/

set_option autoImplicit false

namespace Chronos

/-! ## Decimal text (`strconv`, the `%d` verb, Redis integers) -/

/-- The character of a decimal digit. -/
def digitChar : Nat → Char
  | 0 => '0'
  | 1 => '1'
  | 2 => '2'
  | 3 => '3'
  | 4 => '4'
  | 5 => '5'
  | 6 => '6'
  | 7 => '7'
  | 8 => '8'
  | _ => '9'

/-- Digits of `n`, most significant first, pushed in front of `acc`. -/
def natDigitsAux : Nat → Nat → List Char → List Char
  | 0, _, acc => acc
  | fuel + 1, n, acc =>
    if n / 10 = 0 then digitChar (n % 10) :: acc
    else natDigitsAux fuel (n / 10) (digitChar (n % 10) :: acc)

/-- Decimal digits of a natural number. -/
def natDigits (n : Nat) : List Char := natDigitsAux (n + 1) n []

/-- The text of an integer as `strconv.Itoa`, the `%d` verb and Redis write it. -/
def formatInt : Int → String
  | Int.ofNat n => String.mk (natDigits n)
  | Int.negSucc n => String.mk ('-' :: natDigits (n + 1))

/-- Value of a non-empty run of decimal digits. -/
def parseDigits (cs : List Char) : Option Nat :=
  if cs ≠ [] ∧ cs.all Char.isDigit = true then
    some (cs.foldl (fun a c => 10 * a + (c.toNat - 48)) 0)
  else none

def minInt64 : Int := -9223372036854775808

def maxInt64 : Int := 9223372036854775807

/-- Unbounded reading of an optionally signed decimal numeral. -/
def parseSigned : List Char → Option Int
  | [] => none
  | c :: rest =>
    if c = '-' then (parseDigits rest).map (fun n => -(n : Int))
    else if c = '+' then (parseDigits rest).map (fun n => (n : Int))
    else (parseDigits (c :: rest)).map (fun n => (n : Int))

/-- Go's `strconv.Atoi` on a 64-bit platform: an optional sign, at least one
digit, and a value that fits an `int`; `none` stands for the error. -/
def Atoi (s : String) : Option Int :=
  (parseSigned s.data).filter (fun i => decide (minInt64 ≤ i ∧ i ≤ maxInt64))

/-- The idiom `v, _ := strconv.Atoi(s)`: the value `Atoi` returns next to its
error, which is 0 for a syntax error and the nearest `int` for a numeral out of
range. -/
def AtoiValue (s : String) : Int :=
  match parseSigned s.data with
  | none => 0
  | some i => if i < minInt64 then minInt64 else if maxInt64 < i then maxInt64 else i

/-- Redis's `string2ll`: the strings accepted are exactly the canonical texts
of the signed 64-bit integers. -/
def string2ll (s : String) : Option Int :=
  (Atoi s).filter (fun i => decide (formatInt i = s))

/-! ## Instants and their text layout (`time`) -/

/-- An instant, in nanoseconds counted from the zero `Time`. -/
abbrev Time := Int

/-- The zero value `time.Time{}`, which `time.Parse` returns with an error. -/
def zeroTime : Time := 0

/-- The layout `time.RFC3339Nano` as the cache uses it: `format t` is
`t.Format(time.RFC3339Nano)` and `parse s` is `time.Parse(time.RFC3339Nano, s)`,
with `none` for a parse error. -/
structure TimeLayout where
  format : Time → String
  parse : String → Option Time

/-- The idiom `v, _ := time.Parse(layout, s)`: an error leaves the zero `Time`. -/
def TimeLayout.parseOrZero (tl : TimeLayout) (s : String) : Time :=
  (tl.parse s).getD zeroTime

/-! ## Values of `models` -/

/-- A dynamic value held in a field of type `any`: the dynamic types modelled
are `nil`, `bool`, `int`, `float64` (`float64 v` is the `float64` whose value
is the integer `v`), `string`, and `func` as a representative of the types
`encoding/json` refuses to encode. -/
inductive GoAny where
  | nil
  | bool (b : Bool)
  | int (i : Int)
  | float64 (v : Int)
  | string (s : String)
  | func
  deriving DecidableEq, Repr

/-- The struct `models.MetadataItem`. -/
structure MetadataItem where
  Key : String
  Value : String
  deriving DecidableEq, Repr

/-- The struct `models.Configuration`. -/
structure Configuration where
  PrimaryKey : String
  Protocol : String
  Host : String
  Path : String
  Port : String
  Metadata : List MetadataItem
  deriving DecidableEq, Repr

/-- The struct `models.ResponseStatus`, the outcome of one record. -/
structure ResponseStatus where
  PrimaryKey : String
  RowKey : Int
  Status : String
  Response : GoAny
  Error : String
  deriving DecidableEq, Repr

/-! ## JSON documents (`encoding/json`) -/

/-- A JSON value that is not a container. -/
inductive JsonScalar where
  | null
  | bool (b : Bool)
  | num (n : Int)
  | str (s : String)
  deriving DecidableEq, Repr

/-- A JSON document as the cache stores it: a scalar, or an object whose
members, in order, are scalars. -/
inductive Json where
  | scalar (v : JsonScalar)
  | object (members : List (String × JsonScalar))
  deriving DecidableEq, Repr

/-! ## The Redis keyspace -/

/-- A value held at a Redis key: a string (the cache only stores JSON
documents as strings, so the document stands for its text) or a hash. -/
inductive RedisValue where
  | str (doc : Json)
  | hash (fields : List (String × String))
  deriving DecidableEq, Repr

/-- A key's value with the server time at which it expires, if any. -/
structure Entry where
  value : RedisValue
  expireAt : Option Nat
  deriving DecidableEq, Repr

/-- The keyspace. -/
abbrev Store := String → Option Entry

/-- Whether an entry is still readable at server time `now`. -/
def Entry.liveAt (e : Entry) (now : Nat) : Bool :=
  match e.expireAt with
  | none => true
  | some deadline => decide (now < deadline)

/-- What a command issued at server time `now` finds at `key`. -/
def Store.lookup (db : Store) (now : Nat) (key : String) : Option Entry :=
  (db key).filter (fun e => e.liveAt now)

/-- The keyspace with `key` bound to `e`. -/
def Store.put (db : Store) (key : String) (e : Entry) : Store :=
  fun k => if k = key then some e else db k

/-- One hash with `field` set to `v`: replaced in place, or added at the end. -/
def hashSet : List (String × String) → String → String → List (String × String)
  | [], field, v => [(field, v)]
  | (k, x) :: rest, field, v =>
    if k = field then (k, v) :: rest else (k, x) :: hashSet rest field v

def errWrongType : String :=
  "WRONGTYPE Operation against a key holding the wrong kind of value"

/-- The command `SET key doc EX ttl`. -/
def redisSet (db : Store) (now : Nat) (key : String) (doc : Json) (ttl : Nat) : Store :=
  db.put key { value := RedisValue.str doc, expireAt := some (now + ttl) }

/-- The command `GET key`: `ok none` is the reply `redis.Nil`. -/
def redisGet (db : Store) (now : Nat) (key : String) : Except String (Option Json) :=
  match db.lookup now key with
  | none => Except.ok none
  | some e =>
    match e.value with
    | RedisValue.str doc => Except.ok (some doc)
    | RedisValue.hash _ => Except.error errWrongType

/-- The command `HINCRBY key field incr`. -/
def redisHIncrBy (db : Store) (now : Nat) (key field : String) (incr : Int) :
    Except String (Int × Store) :=
  match db.lookup now key with
  | none =>
    Except.ok (incr, db.put key
      { value := RedisValue.hash [(field, formatInt incr)], expireAt := none })
  | some e =>
    match e.value with
    | RedisValue.str _ => Except.error errWrongType
    | RedisValue.hash fields =>
      match fields.lookup field with
      | none =>
        Except.ok (incr, db.put key
          { value := RedisValue.hash (hashSet fields field (formatInt incr)),
            expireAt := e.expireAt })
      | some old =>
        match string2ll old with
        | none => Except.error "ERR hash value is not an integer"
        | some v =>
          if minInt64 ≤ v + incr ∧ v + incr ≤ maxInt64 then
            Except.ok (v + incr, db.put key
              { value := RedisValue.hash (hashSet fields field (formatInt (v + incr))),
                expireAt := e.expireAt })
          else Except.error "ERR increment or decrement would overflow"

/-- The command `HMGET key fields...`: one reply per field, `none` for nil. -/
def redisHMGet (db : Store) (now : Nat) (key : String) (fields : List String) :
    Except String (List (Option String)) :=
  match db.lookup now key with
  | none => Except.ok (fields.map (fun _ => none))
  | some e =>
    match e.value with
    | RedisValue.str _ => Except.error errWrongType
    | RedisValue.hash hs => Except.ok (fields.map (fun f => hs.lookup f))

/-- The command `HSET key field v`. -/
def redisHSet (db : Store) (now : Nat) (key field v : String) : Except String Store :=
  match db.lookup now key with
  | none =>
    Except.ok (db.put key { value := RedisValue.hash [(field, v)], expireAt := none })
  | some e =>
    match e.value with
    | RedisValue.str _ => Except.error errWrongType
    | RedisValue.hash hs =>
      Except.ok (db.put key
        { value := RedisValue.hash (hashSet hs field v), expireAt := e.expireAt })

/-- The command `EXPIRE key ttl`: a live key gets a new deadline, a missing one
is left alone; neither case is an error. -/
def redisExpire (db : Store) (now : Nat) (key : String) (ttl : Nat) : Store :=
  match db.lookup now key with
  | none => db
  | some e => db.put key { value := e.value, expireAt := some (now + ttl) }

/-- The command `HGETALL key`: the empty map for a missing key. -/
def redisHGetAll (db : Store) (now : Nat) (key : String) :
    Except String (List (String × String)) :=
  match db.lookup now key with
  | none => Except.ok []
  | some e =>
    match e.value with
    | RedisValue.str _ => Except.error errWrongType
    | RedisValue.hash hs => Except.ok hs

/-! ## Package `cache` -/

/-- The constant `time.Hour`, in nanoseconds. -/
def Hour : Nat := 3600 * 1000000000

/-- The constant `DefaultTTL = 1 * time.Hour`. -/
def DefaultTTL : Nat := 1 * Hour

/-- The struct `RealTimeStats`. -/
structure RealTimeStats where
  Count : Int
  MinTime : Time
  MaxTime : Time
  deriving DecidableEq, Repr

/-- The key `fmt.Sprintf("stats:%s", primaryKey)`. -/
def statsKey (primaryKey : String) : String := "stats:" ++ primaryKey

/-- The key `fmt.Sprintf("%s:%d", primaryKey, rowKey)`. -/
def entryKey (primaryKey : String) (rowKey : Int) : String :=
  primaryKey ++ ":" ++ formatInt rowKey

/-- A call `c.client.HSet(...)` whose result the caller drops: a failed
command leaves the keyspace as it was. -/
def hsetIgnoringResult (db : Store) (now : Nat) (key field v : String) : Store :=
  match redisHSet db now key field v with
  | Except.ok db1 => db1
  | Except.error _ => db

/-- The method `Cache.UpdateStats`, run at server time `now`: the error it
returns (`none` is `nil`) and the keyspace it leaves. -/
def UpdateStats (tl : TimeLayout) (db : Store) (now : Nat) (primaryKey : String)
    (insertionTime : Time) : Option String × Store :=
  let key := statsKey primaryKey
  let newTimeStr := tl.format insertionTime
  match redisHIncrBy db now key "count" 1 with
  | Except.error err => (some err, db)
  | Except.ok (_, db1) =>
    match redisHMGet db1 now key ["min_time", "max_time"] with
    | Except.error err => (some err, db1)
    | Except.ok res =>
      let db2 :=
        match res.getD 0 none with
        | none => hsetIgnoringResult db1 now key "min_time" newTimeStr
        | some cur =>
          if insertionTime < tl.parseOrZero cur then
            hsetIgnoringResult db1 now key "min_time" newTimeStr
          else db1
      let db3 :=
        match res.getD 1 none with
        | none => hsetIgnoringResult db2 now key "max_time" newTimeStr
        | some cur =>
          if tl.parseOrZero cur < insertionTime then
            hsetIgnoringResult db2 now key "max_time" newTimeStr
          else db2
      (none, redisExpire db3 now key DefaultTTL)

/-- The method `Cache.GetStats`, run at server time `now`. -/
def GetStats (tl : TimeLayout) (db : Store) (now : Nat) (primaryKey : String) :
    Except String RealTimeStats :=
  match redisHGetAll db now (statsKey primaryKey) with
  | Except.error err => Except.error err
  | Except.ok data =>
    if data.length = 0 then Except.error "no stats found"
    else
      Except.ok
        { Count := AtoiValue ((data.lookup "count").getD "")
          MinTime := tl.parseOrZero ((data.lookup "min_time").getD "")
          MaxTime := tl.parseOrZero ((data.lookup "max_time").getD "") }

/-- Calls of `UpdateStats` for one job made one after the other, each with the
server time at which it runs and the instant it merges; the run stops at the
first call that returns an error. -/
def updateStatsSeq (tl : TimeLayout) (primaryKey : String) :
    Store → List (Nat × Time) → Except String Store
  | db, [] => Except.ok db
  | db, (now, t) :: rest =>
    match UpdateStats tl db now primaryKey t with
    | (none, db1) => updateStatsSeq tl primaryKey db1 rest
    | (some err, _) => Except.error err


/-! ## The layout `time.RFC3339Nano` for instants in UTC

Package `time` written out for a `Time` whose location is UTC: `Format` with
the layout `2006-01-02T15:04:05.999999999Z07:00` and `Parse` with the same
layout. -/

def nanosPerSecond : Nat := 1000000000

def nanosPerDay : Nat := 86400 * 1000000000

/-- Whether `year` is a leap year of the proleptic Gregorian calendar. -/
def isLeap (year : Int) : Bool :=
  decide (Int.emod year 4 = 0 ∧ (Int.emod year 100 ≠ 0 ∨ Int.emod year 400 = 0))

/-- The lengths of the twelve months. -/
def monthLengths (leap : Bool) : List Nat :=
  [31, if leap then 29 else 28, 31, 30, 31, 30, 31, 31, 30, 31, 30, 31]

/-- The year of the day `days` after 1 January of year 1, and the zero-based
day of that year: the 400-, 100-, 4- and 1-year cycles are cut off in turn. -/
def yearAndDay (days : Int) : Int × Nat :=
  let n400 := Int.ediv days 146097
  let d0 := (Int.emod days 146097).toNat
  let n100 := d0 / 36524 - d0 / 36524 / 4
  let d1 := d0 - 36524 * n100
  let n4 := d1 / 1461
  let d2 := d1 - 1461 * n4
  let n1 := d2 / 365 - d2 / 365 / 4
  (400 * n400 + ((100 * n100 + 4 * n4 + n1 + 1 : Nat) : Int), d2 - 365 * n1)

/-- The month (counted from `month`) and day of the month of the day `yday`
of the months whose lengths are listed. -/
def monthAndDay : List Nat → Nat → Nat → Nat × Nat
  | [], month, yday => (month, yday + 1)
  | len :: rest, month, yday =>
    if yday < len then (month, yday + 1) else monthAndDay rest (month + 1) (yday - len)

/-- The helper `appendInt` of package `time`: the digits of `x`, padded with
zeros to `width`, after a minus sign when `x` is negative. -/
def appendInt (x : Int) (width : Nat) : List Char :=
  let digits := natDigits x.natAbs
  let padded := List.replicate (width - digits.length) '0' ++ digits
  if x < 0 then '-' :: padded else padded

/-- The helper `appendNano` for `.999999999`: nothing for a whole second,
else the nine digits without their trailing zeros. -/
def appendNano (nanos : Nat) : List Char :=
  if nanos = 0 then []
  else '.' :: ((appendInt (nanos : Int) 9).reverse.dropWhile (fun c => c = '0')).reverse

/-- The call `t.Format(time.RFC3339Nano)` for a `Time` in UTC. -/
def formatRFC3339NanoUTC (t : Time) : String :=
  let days := Int.ediv t (nanosPerDay : Int)
  let rem := (Int.emod t (nanosPerDay : Int)).toNat
  let secs := rem / nanosPerSecond
  let yd := yearAndDay days
  let md := monthAndDay (monthLengths (isLeap yd.1)) 1 yd.2
  String.mk
    (appendInt yd.1 4 ++ '-' :: appendInt (md.1 : Int) 2 ++ '-' :: appendInt (md.2 : Int) 2
      ++ 'T' :: appendInt ((secs / 3600 : Nat) : Int) 2
      ++ ':' :: appendInt ((secs % 3600 / 60 : Nat) : Int) 2
      ++ ':' :: appendInt ((secs % 60 : Nat) : Int) 2
      ++ appendNano (rem % nanosPerSecond) ++ ['Z'])

/-- The value of a decimal digit. -/
def digitOf (c : Char) : Option Nat :=
  if c.isDigit = true then some (c.toNat - 48) else none

/-- The helper `getnum` of package `time`: two digits, or a single one when
the field is not `fixed`, and the rest of the text. -/
def getnum (fixed : Bool) : List Char → Option (Nat × List Char)
  | [] => none
  | c0 :: rest =>
    match digitOf c0 with
    | none => none
    | some d0 =>
      match rest with
      | [] => if fixed = true then none else some (d0, [])
      | c1 :: rest1 =>
        match digitOf c1 with
        | some d1 => some (10 * d0 + d1, rest1)
        | none => if fixed = true then none else some (d0, rest)

/-- A literal byte of the layout, which the text must show. -/
def skipByte (c : Char) : List Char → Option (List Char)
  | [] => none
  | x :: rest => if x = c then some rest else none

/-- The field `2006`: four digits. -/
def parseYear (value : List Char) : Option (Nat × List Char) :=
  match parseDigits (value.take 4) with
  | none => none
  | some year => if (value.take 4).length = 4 then some (year, value.drop 4) else none

/-- The field `.999999999`: when a period or comma and a digit follow, all the
digits that follow are taken and the first nine give the nanoseconds; else
the fraction is absent. -/
def parseFraction (value : List Char) : Nat × List Char :=
  match value with
  | sep :: rest =>
    if (sep = '.' ∨ sep = ',') ∧ (rest.head?.map Char.isDigit) = some true then
      let digits := rest.takeWhile Char.isDigit
      let nine := digits.take 9 ++ List.replicate (9 - (digits.take 9).length) '0'
      ((parseDigits nine).getD 0, rest.dropWhile Char.isDigit)
    else (0, value)
  | [] => (0, value)

/-- The field `Z07:00`: `Z`, or a sign, two digits, a colon and two digits;
the offset is in seconds east of UTC. -/
def parseZone (value : List Char) : Option (Int × List Char) :=
  match value with
  | 'Z' :: rest => some (0, rest)
  | sign :: h0 :: h1 :: colon :: m0 :: m1 :: rest =>
    if colon ≠ ':' then none
    else
      match getnum true [h0, h1], getnum true [m0, m1] with
      | some (hr, _), some (mm, _) =>
        if 24 < hr ∨ 60 < mm then none
        else if sign = '+' then some ((((hr * 60 + mm) * 60 : Nat) : Int), rest)
        else if sign = '-' then some (-(((hr * 60 + mm) * 60 : Nat) : Int), rest)
        else none
      | _, _ => none
  | _ => none

/-- The number of days from 1 January of year 1 to 1 January of `year`. -/
def daysBeforeYear (year : Int) : Int :=
  365 * (year - 1) + Int.ediv (year - 1) 4 - Int.ediv (year - 1) 100 + Int.ediv (year - 1) 400

/-- The call `time.Parse(time.RFC3339Nano, s)`: the instant read, or `none`
for an error. -/
def parseRFC3339Nano (s : String) : Option Time :=
  match parseYear s.data with
  | none => none
  | some (year, v1) =>
  match skipByte '-' v1 with
  | none => none
  | some v2 =>
  match getnum true v2 with
  | none => none
  | some (month, v3) =>
  match skipByte '-' v3 with
  | none => none
  | some v4 =>
  match getnum true v4 with
  | none => none
  | some (day, v5) =>
  match skipByte 'T' v5 with
  | none => none
  | some v6 =>
  match getnum false v6 with
  | none => none
  | some (hour, v7) =>
  match skipByte ':' v7 with
  | none => none
  | some v8 =>
  match getnum true v8 with
  | none => none
  | some (min, v9) =>
  match skipByte ':' v9 with
  | none => none
  | some v10 =>
  match getnum true v10 with
  | none => none
  | some (sec, v11) =>
  match parseZone (parseFraction v11).2 with
  | none => none
  | some (offset, v12) =>
    let lengths := monthLengths (isLeap (year : Int))
    if v12 ≠ [] ∨ month < 1 ∨ 12 < month ∨ 24 ≤ hour ∨ 60 ≤ min ∨ 60 ≤ sec
        ∨ day < 1 ∨ lengths.getD (month - 1) 0 < day then none
    else
      let days := daysBeforeYear (year : Int) + (((lengths.take (month - 1)).sum + (day - 1) : Nat) : Int)
      some (days * (nanosPerDay : Int)
        + ((((hour * 3600 + min * 60 + sec) * nanosPerSecond + (parseFraction v11).1 : Nat) : Int))
        - offset * (nanosPerSecond : Int))

/-- The layout `time.RFC3339Nano` for instants in UTC. -/
def rfc3339NanoUTC : TimeLayout :=
  { format := formatRFC3339NanoUTC, parse := parseRFC3339Nano }


/-! ## UTF-8, numbers and member names as `encoding/json` treats them -/

/-- For the first byte of a multi-byte UTF-8 encoding: the length of the
encoding and the range its second byte must lie in (the tables `first` and
`acceptRanges` of `unicode/utf8`). -/
def utf8First (b0 : Nat) : Option (Nat × Nat × Nat) :=
  if 0xC2 ≤ b0 ∧ b0 ≤ 0xDF then some (2, 0x80, 0xBF)
  else if b0 = 0xE0 then some (3, 0xA0, 0xBF)
  else if 0xE1 ≤ b0 ∧ b0 ≤ 0xEC then some (3, 0x80, 0xBF)
  else if b0 = 0xED then some (3, 0x80, 0x9F)
  else if 0xEE ≤ b0 ∧ b0 ≤ 0xEF then some (3, 0x80, 0xBF)
  else if b0 = 0xF0 then some (4, 0x90, 0xBF)
  else if 0xF1 ≤ b0 ∧ b0 ≤ 0xF3 then some (4, 0x80, 0xBF)
  else if b0 = 0xF4 then some (4, 0x80, 0x8F)
  else none

/-- Whether `b` is a continuation byte. -/
def isCont (b : Nat) : Bool := decide (0x80 ≤ b ∧ b ≤ 0xBF)

/-- The width of the rune `utf8.DecodeRuneInString` decodes at the head of the
bytes `bs`; 0 stands for the result `(RuneError, 1)` of an invalid or
incomplete encoding. -/
def runeWidth : List Nat → Nat
  | [] => 0
  | b0 :: rest =>
    if b0 < 0x80 then 1
    else
      match utf8First b0 with
      | none => 0
      | some (size, lo, hi) =>
        match rest with
        | [] => 0
        | b1 :: rest1 =>
          if ¬ (lo ≤ b1 ∧ b1 ≤ hi) then 0
          else if size = 2 then 2
          else
            match rest1 with
            | [] => 0
            | b2 :: rest2 =>
              if isCont b2 = false then 0
              else if size = 3 then 3
              else
                match rest2 with
                | [] => 0
                | b3 :: _ => if isCont b3 = true then 4 else 0

/-- The bytes of the UTF-8 encoding of U+FFFD. -/
def replacementBytes : List Char := [Char.ofNat 0xEF, Char.ofNat 0xBF, Char.ofNat 0xBD]

/-- The bytes `bs` with every byte that starts no valid encoding replaced by
the encoding of U+FFFD; `fuel` bounds the number of runes. -/
def coerceUTF8 : Nat → List Char → List Char
  | 0, _ => []
  | _ + 1, [] => []
  | fuel + 1, c :: rest =>
    if runeWidth ((c :: rest.take 3).map Char.toNat) = 0 then
      replacementBytes ++ coerceUTF8 fuel rest
    else
      c :: (rest.take (runeWidth ((c :: rest.take 3).map Char.toNat) - 1)
        ++ coerceUTF8 fuel (rest.drop (runeWidth ((c :: rest.take 3).map Char.toNat) - 1)))

/-- A string as `encoding/json` writes and reads it: coerced to valid UTF-8,
invalid bytes replaced by U+FFFD. -/
def toValidUTF8 (s : String) : String := String.mk (coerceUTF8 s.data.length s.data)

/-- Whether the bytes are a sequence of valid encodings; `fuel` bounds the
number of runes. -/
def validUTF8 : Nat → List Char → Bool
  | _, [] => true
  | 0, _ :: _ => false
  | fuel + 1, c :: rest =>
    if runeWidth ((c :: rest.take 3).map Char.toNat) = 0 then false
    else validUTF8 fuel (rest.drop (runeWidth ((c :: rest.take 3).map Char.toNat) - 1))

/-- The function `utf8.ValidString`. -/
def ValidString (s : String) : Bool := validUTF8 s.data.length s.data

/-- The number of binary digits of `n`; `fuel` bounds them. -/
def bitLength : Nat → Nat → Nat
  | 0, _ => 0
  | fuel + 1, n => if n = 0 then 0 else bitLength fuel (n / 2) + 1

/-- The natural number nearest to `n` among the values of a `float64`, ties
going to the even mantissa; `none` when it exceeds the largest `float64`. -/
def nearestFloat64Nat (n : Nat) : Option Nat :=
  if bitLength n n ≤ 53 then some n
  else
    let shift := bitLength n n - 53
    let q := n / 2 ^ shift
    let r := n % 2 ^ shift
    let up := decide (2 ^ (shift - 1) < r ∨ (r = 2 ^ (shift - 1) ∧ q % 2 = 1))
    let v := (if up = true then q + 1 else q) * 2 ^ shift
    if bitLength v v ≤ 1024 then some v else none

/-- The integer value of the `float64` that `strconv.ParseFloat` returns for
the integer numeral `n`; `none` for the range error of a numeral too large. -/
def nearestFloat64 (n : Int) : Option Int :=
  match n with
  | Int.ofNat k => (nearestFloat64Nat k).map (fun v => (v : Int))
  | Int.negSucc k => (nearestFloat64Nat (k + 1)).map (fun v => -(v : Int))

/-- An ASCII letter in upper case, any other byte as it is. -/
def asciiUpper (c : Char) : Char :=
  if 97 ≤ c.toNat ∧ c.toNat ≤ 122 then Char.ofNat (c.toNat - 32) else c

/-- Whether the member name `key` selects the struct field whose JSON name is
the ASCII text `name`: the two are equal once folded, ASCII letters compared
without regard to case and the Kelvin sign and the long s taken for `K` and
`S`. -/
def nameMatches : List Char → List Char → Bool
  | [], [] => true
  | [], _ :: _ => false
  | _ :: _, [] => false
  | t :: name, k :: key =>
    if asciiUpper k = asciiUpper t then nameMatches name key
    else if asciiUpper t = 'K' ∧ k.toNat = 0xE2 ∧ (key.take 2).map Char.toNat = [0x84, 0xAA] then
      nameMatches name (key.drop 2)
    else if asciiUpper t = 'S' ∧ k.toNat = 0xC5 ∧ (key.take 1).map Char.toNat = [0xBF] then
      nameMatches name (key.drop 1)
    else false


/-- The zero value of `models.ResponseStatus`, what `var status` declares. -/
def zeroResponseStatus : ResponseStatus :=
  { PrimaryKey := "", RowKey := 0, Status := "", Response := GoAny.nil, Error := "" }

/-- How `encoding/json` encodes the dynamic value of an `any`.  A string is
coerced to valid UTF-8.  A `float64` is written as the shortest numeral that
reads back as the same `float64`, which is the numeral of its value up to
2^53 in magnitude; beyond, the numeral of its value stands for it. -/
def marshalAny : GoAny → Except String JsonScalar
  | GoAny.nil => Except.ok JsonScalar.null
  | GoAny.bool b => Except.ok (JsonScalar.bool b)
  | GoAny.int i => Except.ok (JsonScalar.num i)
  | GoAny.float64 v => Except.ok (JsonScalar.num v)
  | GoAny.string s => Except.ok (JsonScalar.str (toValidUTF8 s))
  | GoAny.func => Except.error "json: unsupported type: func()"

/-- The call `json.Marshal(status)` for a `models.ResponseStatus`: the members
follow the struct's tags, `response` is left out when the interface is nil and
`error` when the string is empty (`omitempty`); strings are coerced to valid
UTF-8. -/
def Marshal (status : ResponseStatus) : Except String Json :=
  match marshalAny status.Response with
  | Except.error err => Except.error err
  | Except.ok resp =>
    Except.ok (Json.object
      ([("primary-key", JsonScalar.str (toValidUTF8 status.PrimaryKey)),
        ("row-key", JsonScalar.num status.RowKey),
        ("status", JsonScalar.str (toValidUTF8 status.Status))]
        ++ (if status.Response = GoAny.nil then [] else [("response", resp)])
        ++ (if status.Error = "" then []
            else [("error", JsonScalar.str (toValidUTF8 status.Error))])))

/-- How `encoding/json` decodes a JSON value into an `any`: a number always
becomes the nearest `float64`, or an `UnmarshalTypeError` when it is out of
range; a string is coerced to valid UTF-8. -/
def unmarshalAny : JsonScalar → Except String GoAny
  | JsonScalar.null => Except.ok GoAny.nil
  | JsonScalar.bool b => Except.ok (GoAny.bool b)
  | JsonScalar.num n =>
    match nearestFloat64 n with
    | some v => Except.ok (GoAny.float64 v)
    | none => Except.error "json: cannot unmarshal number into Go struct field of type float64"
  | JsonScalar.str s => Except.ok (GoAny.string (toValidUTF8 s))

/-- Decoding into a field of type `string`: `null` leaves the field alone,
anything but a JSON string is an `UnmarshalTypeError`. -/
def unmarshalString (old : String) : JsonScalar → Except String String
  | JsonScalar.null => Except.ok old
  | JsonScalar.str s => Except.ok (toValidUTF8 s)
  | JsonScalar.bool _ => Except.error "json: cannot unmarshal bool into Go struct field of type string"
  | JsonScalar.num _ => Except.error "json: cannot unmarshal number into Go struct field of type string"

/-- Decoding into a field of type `int`: `null` leaves the field alone, a
number must fit 64 bits, anything else is an `UnmarshalTypeError`. -/
def unmarshalInt (old : Int) : JsonScalar → Except String Int
  | JsonScalar.null => Except.ok old
  | JsonScalar.num n =>
    if minInt64 ≤ n ∧ n ≤ maxInt64 then Except.ok n
    else Except.error "json: cannot unmarshal number into Go struct field of type int"
  | JsonScalar.bool _ => Except.error "json: cannot unmarshal bool into Go struct field of type int"
  | JsonScalar.str _ => Except.error "json: cannot unmarshal string into Go struct field of type int"

/-- One object member stored into the struct; a member whose name selects no
field of the struct is skipped. -/
def unmarshalMember (st : ResponseStatus) (name : String) (v : JsonScalar) :
    Except String ResponseStatus :=
  if nameMatches "primary-key".data name.data = true then
    (unmarshalString st.PrimaryKey v).map (fun s => { st with PrimaryKey := s })
  else if nameMatches "row-key".data name.data = true then
    (unmarshalInt st.RowKey v).map (fun i => { st with RowKey := i })
  else if nameMatches "status".data name.data = true then
    (unmarshalString st.Status v).map (fun s => { st with Status := s })
  else if nameMatches "response".data name.data = true then
    (unmarshalAny v).map (fun r => { st with Response := r })
  else if nameMatches "error".data name.data = true then
    (unmarshalString st.Error v).map (fun s => { st with Error := s })
  else Except.ok st

/-- The members of an object stored one after the other. -/
def unmarshalMembers : ResponseStatus → List (String × JsonScalar) → Except String ResponseStatus
  | st, [] => Except.ok st
  | st, (name, v) :: rest =>
    match unmarshalMember st name v with
    | Except.error err => Except.error err
    | Except.ok st1 => unmarshalMembers st1 rest

/-- The call `json.Unmarshal(val, &status)` on a fresh `status`, as
`ReadFromCache` uses it: the value is returned only when the error is nil. -/
def Unmarshal : Json → Except String ResponseStatus
  | Json.object members => unmarshalMembers zeroResponseStatus members
  | Json.scalar JsonScalar.null => Except.ok zeroResponseStatus
  | Json.scalar _ =>
    Except.error "json: cannot unmarshal value into Go value of type models.ResponseStatus"

/-- The method `Cache.ReadFromCache`, run at server time `now` on an
initialised cache. -/
def ReadFromCache (db : Store) (now : Nat) (primaryKey : String) (rowKey : Int) :
    Except String ResponseStatus :=
  match redisGet db now (entryKey primaryKey rowKey) with
  | Except.error err => Except.error err
  | Except.ok none => Except.error "key not found"
  | Except.ok (some val) => Unmarshal val

/-- The method `Cache.WriteToCache`: `wall` is the instant `time.Now()`
returns, `now` the server time at which the commands run; the result is the
error returned (`none` is `nil`) and the keyspace left. -/
def WriteToCache (tl : TimeLayout) (db : Store) (now : Nat) (wall : Time)
    (status : ResponseStatus) : Option String × Store :=
  match Marshal status with
  | Except.error err => (some err, db)
  | Except.ok data =>
    let key := entryKey status.PrimaryKey status.RowKey
    let db1 := redisSet db now key data DefaultTTL
    UpdateStats tl db1 now status.PrimaryKey wall

/-! ## Package `worker`: the consumer -/

/-- The request `http.Post(uri, contentType, body)` sends. -/
structure HttpRequest where
  uri : String
  contentType : String
  body : String
  deriving DecidableEq, Repr

/-- What comes back from `http.Post` followed by `io.ReadAll(resp.Body)`. -/
inductive PostResult where
  /-- The call `http.Post` returned the error whose text is `msg`. -/
  | transportError (msg : String)
  /-- A response with this status code arrived and reading its body failed. -/
  | readError (statusCode : Int) (msg : String)
  /-- A response with this status code and body arrived. -/
  | response (statusCode : Int) (body : String)
  deriving DecidableEq, Repr

/-- The three results of `Task` and the outbound requests it issued. -/
structure TaskResult where
  respBody : String
  statusCode : Int
  err : Option String
  sent : List HttpRequest
  deriving DecidableEq, Repr

/-- The function `Task`; `post` is the network as seen by this call. -/
def Task (post : HttpRequest → PostResult) (payload : String) (conf : Configuration) :
    TaskResult :=
  if conf.Protocol ≠ "http" ∧ conf.Protocol ≠ "https" then
    { respBody := "", statusCode := 0,
      err := some ("unsupported protocol: " ++ conf.Protocol), sent := [] }
  else
    let uri := conf.Protocol ++ "://" ++ conf.Host ++ ":" ++ conf.Port ++ conf.Path
    let req : HttpRequest := { uri := uri, contentType := "application/json", body := payload }
    match post req with
    | PostResult.transportError msg =>
      { respBody := "", statusCode := 0,
        err := some ("error sending POST request: " ++ msg), sent := [req] }
    | PostResult.readError statusCode msg =>
      { respBody := "", statusCode := statusCode,
        err := some ("error reading response body: " ++ msg), sent := [req] }
    | PostResult.response statusCode body =>
      { respBody := body, statusCode := statusCode, err := none, sent := [req] }

/-- The struct `worker.Record`. -/
structure Record where
  PrimaryKey : String
  RowKey : Int
  Payload : String
  Configuration : Configuration
  deriving DecidableEq, Repr

/-- The body of the loop of `Consumer`: the outcome sent for one record. -/
def consumeRecord (post : HttpRequest → PostResult) (rec : Record) : ResponseStatus :=
  let res := Task post rec.Payload rec.Configuration
  let statusString := match res.err with
    | some _ => "failed"
    | none => "success"
  let errString := match res.err with
    | some msg => msg
    | none => ""
  { PrimaryKey := rec.PrimaryKey
    RowKey := rec.RowKey
    Status := statusString
    Response := GoAny.string res.respBody
    Error := errString }

/-- The loop of `Consumer` from its `i`-th iteration on; `net i` is the network
as seen by the `i`-th call of `Task`. -/
def consumerLoop (net : Nat → HttpRequest → PostResult) : Nat → List Record → List ResponseStatus
  | _, [] => []
  | i, rec :: rest => consumeRecord (net i) rec :: consumerLoop net (i + 1) rest

/-- The function `Consumer`: the outcomes sent on `chStatus`, in order, for
the records received from `recordsQ`. -/
def Consumer (net : Nat → HttpRequest → PostResult) (recordsQ : List Record) :
    List ResponseStatus :=
  consumerLoop net 0 recordsQ


/-! ## Package `worker`: the producer -/

/-- What `json.Decoder` meets next in its input, white space between values
skipped.  The input of a decoder is the list of these, in stream order. -/
inductive JsonText where
  /-- A complete JSON value that unmarshals into a `Record`; `rec` is the zero
  `Record` with the members of the value stored in it. -/
  | value (rec : Record)
  /-- A complete JSON value that does not unmarshal into a `Record` (a member
  of the wrong type): `Decode` consumes it and returns an `UnmarshalTypeError`. -/
  | mistyped
  /-- Bytes that are not the start of a JSON value: a syntax error. -/
  | invalid
  /-- The start of a JSON value cut short by the end of the stream. -/
  | truncated
  deriving DecidableEq, Repr

/-- The errors `Decoder.Decode` returns. -/
inductive DecodeError where
  | eof
  | unexpectedEOF
  | syntaxError
  | unmarshalTypeError
  deriving DecidableEq, Repr

/-- The state of a `json.Decoder`: the input not consumed yet and the field
`err`, which once set makes every later `Decode` return it. -/
structure Decoder where
  input : List JsonText
  err : Option DecodeError
  deriving DecidableEq, Repr

/-- The function `json.NewDecoder`. -/
def NewDecoder (f : List JsonText) : Decoder := { input := f, err := none }

/-- The method `Decoder.Decode` into a fresh `Record`.  An error met while
reading the next value (end of stream, syntax error) is saved in `err`; an
error of `unmarshal` is returned once, after the value has been consumed. -/
def Decoder.Decode (dec : Decoder) : Except DecodeError Record × Decoder :=
  match dec.err with
  | some err => (Except.error err, dec)
  | none =>
    match dec.input with
    | [] => (Except.error DecodeError.eof, { dec with err := some DecodeError.eof })
    | JsonText.value rec :: rest => (Except.ok rec, { dec with input := rest })
    | JsonText.mistyped :: rest =>
      (Except.error DecodeError.unmarshalTypeError, { dec with input := rest })
    | JsonText.invalid :: _ =>
      (Except.error DecodeError.syntaxError, { dec with err := some DecodeError.syntaxError })
    | JsonText.truncated :: _ =>
      (Except.error DecodeError.unexpectedEOF, { dec with err := some DecodeError.unexpectedEOF })

/-- The loop of `Publish`, run for at most `fuel` iterations: the records sent
on the channel so far followed by those this run sends, and whether the loop
reached its `break` (`false`: it is still iterating when the fuel runs out). -/
def publishLoop (primaryKey : String) (conf : Configuration) :
    Nat → Decoder → List Record → List Record × Bool
  | 0, _, sent => (sent, false)
  | fuel + 1, decoder, sent =>
    match decoder.Decode with
    | (Except.error err, decoder1) =>
      if err = DecodeError.eof then (sent, true)
      else publishLoop primaryKey conf fuel decoder1 sent
    | (Except.ok rec, decoder1) =>
      publishLoop primaryKey conf fuel decoder1
        (sent ++ [{ rec with PrimaryKey := primaryKey, Configuration := conf }])

/-- The function `Publish`, run for at most `fuel` iterations of its loop; `f`
is the file from its current position on, as the decoder reads it. -/
def Publish (fuel : Nat) (primaryKey : String) (f : List JsonText) (conf : Configuration) :
    List Record × Bool :=
  publishLoop primaryKey conf fuel (NewDecoder f) []

/-! ## Package `worker`: the job runner -/

/-- An open `*os.File`: the name it was opened with, its bytes, its offset. -/
structure File where
  name : String
  data : List Nat
  pos : Nat
  deriving DecidableEq, Repr

/-- The constant `bufio.MaxScanTokenSize`. -/
def MaxScanTokenSize : Nat := 64 * 1024

/-- The helper `dropCR` of `bufio`: a final carriage return is removed. -/
def dropCR (data : List Nat) : List Nat :=
  if data.getLast? = some 13 then data.dropLast else data

/-- The outcome of the first `scanner.Scan()`. -/
inductive ScanResult where
  /-- The call returned true and `scanner.Text()` is `line`. -/
  | token (line : List Nat)
  /-- The call returned false and `scanner.Err()` is nil. -/
  | eof
  /-- The call returned false and `scanner.Err()` is `bufio.ErrTooLong`. -/
  | tooLong
  deriving DecidableEq, Repr

/-- The first `Scan` of a `bufio.Scanner` with the default split function
`ScanLines` and the default buffer, on a file holding `data`: the bytes before
the first line feed, or all of them when there is none, without a final
carriage return; a line that does not fit the buffer is an error. -/
def scanFirstLine (data : List Nat) : ScanResult :=
  if data = [] then ScanResult.eof
  else
    let line := data.takeWhile (fun b => b != 10)
    if line.length < data.length then
      if line.length < MaxScanTokenSize then ScanResult.token (dropCR line)
      else ScanResult.tooLong
    else if data.length < MaxScanTokenSize then ScanResult.token (dropCR data)
    else ScanResult.tooLong

/-- The function `filepath.Base` on a Unix path. -/
def Base (path : String) : String :=
  if path = "" then "."
  else
    let stripped := path.data.reverse.dropWhile (fun c => c = '/')
    let last := (stripped.takeWhile (fun c => c ≠ '/')).reverse
    if last = [] then "/" else String.mk last

/-- The function `strings.HasSuffix`. -/
def HasSuffix (s suffix : String) : Bool := suffix.data.isSuffixOf s.data

/-- The function `strings.TrimSuffix`. -/
def TrimSuffix (s suffix : String) : String :=
  if HasSuffix s suffix = true then
    String.mk (s.data.take (s.data.length - suffix.data.length))
  else s

/-- The function `readConfiguration`; `unmarshal` is `json.Unmarshal` into a
`models.Configuration`.  On success the configuration is returned with the
file as the function leaves it.  The two `Seek` calls are on a regular file
and do not fail. -/
def readConfiguration (unmarshal : List Nat → Except String Configuration) (f : File) :
    Except String (Configuration × File) :=
  match scanFirstLine f.data with
  | ScanResult.tooLong =>
    Except.error ("error during file scan: " ++ "bufio.Scanner: token too long")
  | ScanResult.eof => Except.error "the file is empty or does not contain any records"
  | ScanResult.token line =>
    match unmarshal line with
    | Except.error err => Except.error ("failed to decode JSON: " ++ err)
    | Except.ok conf =>
      Except.ok
        ({ conf with PrimaryKey := TrimSuffix (Base f.name) ".ndjson" },
         { f with pos := line.length + 1 })

/-- A started goroutine `go Publish(primaryKey, file, conf, r.recordsQ)`. -/
structure PublishTask where
  primaryKey : String
  file : File
  conf : Configuration
  deriving DecidableEq, Repr

/-- The method `Runner.Run`; `fs` is the file system as `os.Open` sees it
(the bytes of the file at a path, or the text of the error).  The result is
the error returned (`none` is `nil`) and the `Publish` goroutines started. -/
def Run (unmarshal : List Nat → Except String Configuration)
    (fs : String → Except String (List Nat)) (filePath : String) :
    Option String × List PublishTask :=
  match fs filePath with
  | Except.error err => (some ("failed to open file " ++ filePath ++ ": " ++ err), [])
  | Except.ok data =>
    match readConfiguration unmarshal { name := filePath, data := data, pos := 0 } with
    | Except.error err => (some ("failed to read configuration: " ++ err), [])
    | Except.ok (conf, file) =>
      (none, [{ primaryKey := conf.PrimaryKey, file := file, conf := conf }])

/-! ## Package `service`: naming a job -/

/-- The job identifier `HandleRun` reports in `X-Job-ID` and `job_id` for the
feed stored at `filePath`. -/
def HandleRun_jobID (filePath : String) : String :=
  TrimSuffix (Base filePath) ".ndjson"

/-- The helper `joinPath` of package `os`. -/
def joinPath (dir name : String) : String :=
  if dir ≠ "" ∧ dir.data.getLast? = some '/' then dir ++ name else dir ++ "/" ++ name

/-- The name of the file `os.CreateTemp("", fmt.Sprintf("job-%s-*.ndjson", jobUUID))`
creates: `tempDir` is `os.TempDir()` and `random` the number whose decimal text
replaces the `*`. -/
def CreateTemp_name (tempDir jobUUID : String) (random : Nat) : String :=
  joinPath tempDir ("job-" ++ jobUUID ++ "-") ++ formatInt (random : Int) ++ ".ndjson"


/-! ## Vocabulary of the statements -/

/-- The fields of a statistics hash in the order `UpdateStats` creates them. -/
def statsHash (count minTime maxTime : String) : List (String × String) :=
  [("count", count), ("min_time", minTime), ("max_time", maxTime)]

/-- The keyspace with nothing stored. -/
def emptyStore : Store := fun _ => none

/-- No expiry elapses along a run of commands issued at the server times
`clocks`: each one after the first is issued less than `DefaultTTL` after the
one before it. -/
def noExpiryBetween : List Nat → Prop
  | [] => True
  | [_] => True
  | a :: b :: rest => b < a + DefaultTTL ∧ noExpiryBetween (b :: rest)

/-- Every call of the run `calls` is issued before the deadline in force when
it starts (`deadline` for the first one, `DefaultTTL` after the previous call
for the others), and so is a last command issued at server time `g`. -/
def runsBefore : Nat → List (Nat × Time) → Nat → Prop
  | deadline, [], g => g < deadline
  | deadline, (now, _) :: rest, g => now < deadline ∧ runsBefore (now + DefaultTTL) rest g

/-- A text layout under which every instant in the range of an `int` reads
back as written: the decimal count of nanoseconds.  It instantiates the
statements that hold for any layout. -/
def decimalLayout : TimeLayout := { format := formatInt, parse := Atoi }

/-- A record as `Publish` sends it: the row identifier and payload decoded from
the line, the job identifier and configuration of the job. -/
def stamp (primaryKey : String) (conf : Configuration) (rec : Record) : Record :=
  { PrimaryKey := primaryKey, RowKey := rec.RowKey, Payload := rec.Payload,
    Configuration := conf }

/-- What `GetStats(j)` returns at server time `g` after the run `calls` of
`UpdateStats(j, t)`, or the error of the first call that fails. -/
def GetStatsAfter (tl : TimeLayout) (j : String) (db : Store) (calls : List (Nat × Time))
    (g : Nat) : Except String RealTimeStats :=
  match updateStatsSeq tl j db calls with
  | Except.ok db1 => GetStats tl db1 g j
  | Except.error err => Except.error err


/-! ## Properties -/

/-! ### Decimal text -/

theorem digitChar_spec (d : Nat) (h : d < 10) :
    (digitChar d).isDigit = true ∧ (digitChar d).toNat - 48 = d ∧
      digitChar d ≠ '-' ∧ digitChar d ≠ '+' := by
  interval_cases d <;> decide

theorem natDigitsAux_foldl (fuel : Nat) :
    ∀ (n : Nat) (acc : List Char), n < fuel →
      (natDigitsAux fuel n acc).foldl (fun a c => 10 * a + (c.toNat - 48)) 0 =
        acc.foldl (fun a c => 10 * a + (c.toNat - 48)) n := by
  induction fuel with
  | zero => intro n acc h; omega
  | succ fuel ih =>
    intro n acc h
    have hd := (digitChar_spec (n % 10) (Nat.mod_lt _ (by decide))).2.1
    unfold natDigitsAux
    split
    · rename_i h0
      have hn : n % 10 = n := by omega
      rw [hn] at hd
      simp only [List.foldl_cons, hd, Nat.mul_zero, Nat.zero_add, hn]
    · rename_i h0
      rw [ih (n / 10) _ (by omega)]
      simp only [List.foldl_cons, hd]
      congr 1
      omega

theorem natDigitsAux_all (fuel : Nat) :
    ∀ (n : Nat) (acc : List Char), acc.all Char.isDigit = true →
      (natDigitsAux fuel n acc).all Char.isDigit = true := by
  induction fuel with
  | zero => intro n acc h; simpa [natDigitsAux] using h
  | succ fuel ih =>
    intro n acc h
    have hd := (digitChar_spec (n % 10) (Nat.mod_lt _ (by decide))).1
    unfold natDigitsAux
    split
    · simp only [List.all_cons, hd, h, Bool.and_self]
    · exact ih _ _ (by simp only [List.all_cons, hd, h, Bool.and_self])

theorem natDigitsAux_ne_nil (fuel : Nat) :
    ∀ (n : Nat) (acc : List Char), (acc ≠ [] ∨ 0 < fuel) → natDigitsAux fuel n acc ≠ [] := by
  induction fuel with
  | zero =>
    intro n acc h
    rcases h with h | h
    · simpa [natDigitsAux] using h
    · omega
  | succ fuel ih =>
    intro n acc _
    unfold natDigitsAux
    split
    · simp
    · exact ih _ _ (Or.inl (by simp))

theorem parseDigits_natDigits (n : Nat) : parseDigits (natDigits n) = some n := by
  unfold parseDigits
  have h1 : natDigits n ≠ [] := natDigitsAux_ne_nil _ _ _ (Or.inr (Nat.succ_pos n))
  have h2 : (natDigits n).all Char.isDigit = true := natDigitsAux_all _ _ _ (by simp)
  rw [if_pos ⟨h1, h2⟩]
  have h3 := natDigitsAux_foldl (n + 1) n [] (Nat.lt_succ_self n)
  simp only [List.foldl_nil] at h3
  exact congrArg some h3

theorem parseSigned_natDigits (n : Nat) : parseSigned (natDigits n) = some (n : Int) := by
  have hp := parseDigits_natDigits n
  cases hl : natDigits n with
  | nil => exact absurd hl (natDigitsAux_ne_nil _ _ _ (Or.inr (Nat.succ_pos n)))
  | cons c rest =>
    have hall : (natDigits n).all Char.isDigit = true := natDigitsAux_all _ _ _ (by simp)
    rw [hl, List.all_cons, Bool.and_eq_true] at hall
    have hc1 : c ≠ '-' := by
      intro hc; rw [hc] at hall; exact absurd hall.1 (by decide)
    have hc2 : c ≠ '+' := by
      intro hc; rw [hc] at hall; exact absurd hall.1 (by decide)
    rw [hl] at hp
    simp [parseSigned, hc1, hc2, hp]

theorem Atoi_formatInt_ofNat (n : Nat) (h : (n : Int) ≤ maxInt64) :
    Atoi (formatInt (n : Int)) = some (n : Int) := by
  have h0 : minInt64 ≤ (n : Int) := by unfold minInt64; omega
  show (parseSigned (natDigits n)).filter _ = _
  rw [parseSigned_natDigits]
  simp [Option.filter, h0, h]

theorem AtoiValue_formatInt_ofNat (n : Nat) (h : (n : Int) ≤ maxInt64) :
    AtoiValue (formatInt (n : Int)) = (n : Int) := by
  have h0 : ¬ (n : Int) < minInt64 := by unfold minInt64; omega
  have h1 : ¬ maxInt64 < (n : Int) := by omega
  show (match parseSigned (natDigits n) with
    | none => 0
    | some i => if i < minInt64 then minInt64 else if maxInt64 < i then maxInt64 else i) = _
  rw [parseSigned_natDigits]
  simp only [if_neg h0, if_neg h1]

theorem string2ll_formatInt_ofNat (n : Nat) (h : (n : Int) ≤ maxInt64) :
    string2ll (formatInt (n : Int)) = some (n : Int) := by
  unfold string2ll
  rw [Atoi_formatInt_ofNat n h]
  simp [Option.filter]

/-! ### The keyspace -/

theorem Store.put_same (db : Store) (key : String) (e : Entry) : (db.put key e) key = some e := by
  simp [Store.put]

theorem Store.put_other (db : Store) (key k : String) (e : Entry) (h : k ≠ key) :
    (db.put key e) k = db k := by
  simp [Store.put, h]

theorem Store.lookup_of_live (db : Store) (now : Nat) (key : String) (e : Entry)
    (h : db key = some e) (hl : e.liveAt now = true) : db.lookup now key = some e := by
  simp [Store.lookup, h, Option.filter, hl]

theorem liveAt_deadline (v : RedisValue) (now deadline : Nat) (h : now < deadline) :
    ({ value := v, expireAt := some deadline } : Entry).liveAt now = true := by
  simp [Entry.liveAt, h]

theorem liveAt_persistent (v : RedisValue) (now : Nat) :
    ({ value := v, expireAt := none } : Entry).liveAt now = true := rfl

theorem hsetIgnoringResult_hash (db : Store) (now : Nat) (key field v : String)
    (fields : List (String × String)) (exp : Option Nat)
    (h : db.lookup now key = some { value := RedisValue.hash fields, expireAt := exp }) :
    hsetIgnoringResult db now key field v =
      db.put key { value := RedisValue.hash (hashSet fields field v), expireAt := exp } := by
  simp only [hsetIgnoringResult, redisHSet, h]

theorem redisExpire_live (db : Store) (now : Nat) (key : String) (ttl : Nat) (e : Entry)
    (h : db.lookup now key = some e) :
    redisExpire db now key ttl = db.put key { value := e.value, expireAt := some (now + ttl) } := by
  simp only [redisExpire, h]

theorem lookup_put_live (db : Store) (now : Nat) (key : String) (e : Entry)
    (hl : e.liveAt now = true) : (db.put key e).lookup now key = some e :=
  Store.lookup_of_live _ _ _ _ (Store.put_same _ _ _) hl

/-! ### `UpdateStats`, one call -/

/-- The first merge for a job creates the hash with count 1 and both extrema
equal to the merged instant. -/
theorem UpdateStats_first (tl : TimeLayout) (db : Store) (now : Nat) (j : String) (t : Time)
    (hfresh : db.lookup now (statsKey j) = none) :
    (UpdateStats tl db now j t).1 = none ∧
      (UpdateStats tl db now j t).2 (statsKey j) = some
        { value := RedisValue.hash (statsHash (formatInt 1) (tl.format t) (tl.format t)),
          expireAt := some (now + DefaultTTL) } := by
  have h1 := lookup_put_live db now (statsKey j)
    { value := RedisValue.hash [("count", formatInt 1)], expireAt := none } rfl
  have e1 : List.lookup "min_time" [("count", formatInt 1)] = none := rfl
  have e2 : List.lookup "max_time" [("count", formatInt 1)] = none := rfl
  have h2 := hsetIgnoringResult_hash _ now (statsKey j) "min_time" (tl.format t) _ _ h1
  have h3 := lookup_put_live (db.put (statsKey j)
    { value := RedisValue.hash [("count", formatInt 1)], expireAt := none }) now (statsKey j)
    { value := RedisValue.hash (hashSet [("count", formatInt 1)] "min_time" (tl.format t)),
      expireAt := none } rfl
  have h4 := hsetIgnoringResult_hash _ now (statsKey j) "max_time" (tl.format t) _ _ h3
  have h5 := lookup_put_live ((db.put (statsKey j)
    { value := RedisValue.hash [("count", formatInt 1)], expireAt := none }).put (statsKey j)
    { value := RedisValue.hash (hashSet [("count", formatInt 1)] "min_time" (tl.format t)),
      expireAt := none }) now (statsKey j)
    { value := RedisValue.hash (hashSet (hashSet [("count", formatInt 1)] "min_time"
        (tl.format t)) "max_time" (tl.format t)),
      expireAt := none } rfl
  have h6 := redisExpire_live _ now (statsKey j) DefaultTTL _ h5
  simp only [UpdateStats, redisHIncrBy, hfresh, redisHMGet, h1, List.map, List.getD_cons_zero,
    List.getD_cons_succ, e1, e2, h2, h4, h6, Store.put_same, true_and]
  rfl

/-- A later merge for a job adds one to the count, lowers the minimum when the
merged instant is before it and raises the maximum when it is after it. -/
theorem UpdateStats_next (tl : TimeLayout) (db : Store) (now : Nat) (j : String) (t : Time)
    (k : Nat) (m M : Time) (deadline : Nat)
    (hdb : db (statsKey j) = some
      { value := RedisValue.hash (statsHash (formatInt (k : Int)) (tl.format m) (tl.format M)),
        expireAt := some deadline })
    (hlive : now < deadline) (hk : ((k : Int) + 1) ≤ maxInt64)
    (hm : tl.parse (tl.format m) = some m) (hM : tl.parse (tl.format M) = some M) :
    (UpdateStats tl db now j t).1 = none ∧
      (UpdateStats tl db now j t).2 (statsKey j) = some
        { value := RedisValue.hash
            (statsHash (formatInt ((k : Int) + 1)) (tl.format (min m t)) (tl.format (max M t))),
          expireAt := some (now + DefaultTTL) } := by
  have hk0 : (k : Int) ≤ maxInt64 := by omega
  have hk1 : minInt64 ≤ (k : Int) + 1 ∧ (k : Int) + 1 ≤ maxInt64 := by
    constructor
    · unfold minInt64; omega
    · exact hk
  have h0 := Store.lookup_of_live db now (statsKey j) _ hdb (liveAt_deadline _ _ _ hlive)
  have e0 : List.lookup "count" (statsHash (formatInt (k : Int)) (tl.format m) (tl.format M))
      = some (formatInt (k : Int)) := rfl
  have hp1 : tl.parseOrZero (tl.format m) = m := by simp [TimeLayout.parseOrZero, hm]
  have hp2 : tl.parseOrZero (tl.format M) = M := by simp [TimeLayout.parseOrZero, hM]
  -- after HINCRBY
  have h1 := lookup_put_live db now (statsKey j)
    { value := RedisValue.hash (statsHash (formatInt ((k : Int) + 1)) (tl.format m)
        (tl.format M)), expireAt := some deadline } (liveAt_deadline _ _ _ hlive)
  have e1 : hashSet (statsHash (formatInt (k : Int)) (tl.format m) (tl.format M)) "count"
      (formatInt ((k : Int) + 1)) =
      statsHash (formatInt ((k : Int) + 1)) (tl.format m) (tl.format M) := rfl
  have e2 : List.lookup "min_time"
      (statsHash (formatInt ((k : Int) + 1)) (tl.format m) (tl.format M))
      = some (tl.format m) := rfl
  have e3 : List.lookup "max_time"
      (statsHash (formatInt ((k : Int) + 1)) (tl.format m) (tl.format M))
      = some (tl.format M) := rfl
  simp only [UpdateStats, redisHIncrBy, h0, e0, string2ll_formatInt_ofNat k hk0, hk1,
    and_self, if_true, e1, redisHMGet, h1, List.map, List.getD_cons_zero,
    List.getD_cons_succ, e2, e3, hp1, hp2]
  by_cases c1 : t < m
  · have hmin : min m t = t := min_eq_right (le_of_lt c1)
    have h2 := hsetIgnoringResult_hash _ now (statsKey j) "min_time" (tl.format t) _ _ h1
    have e4 : hashSet (statsHash (formatInt ((k : Int) + 1)) (tl.format m) (tl.format M))
        "min_time" (tl.format t) =
        statsHash (formatInt ((k : Int) + 1)) (tl.format t) (tl.format M) := rfl
    have h3 := lookup_put_live (db.put (statsKey j)
      { value := RedisValue.hash (statsHash (formatInt ((k : Int) + 1)) (tl.format m)
          (tl.format M)), expireAt := some deadline }) now (statsKey j)
      { value := RedisValue.hash (statsHash (formatInt ((k : Int) + 1)) (tl.format t)
          (tl.format M)), expireAt := some deadline } (liveAt_deadline _ _ _ hlive)
    simp only [if_pos c1, h2, e4, hmin]
    by_cases c2 : M < t
    · have hmax : max M t = t := max_eq_right (le_of_lt c2)
      have h4 := hsetIgnoringResult_hash _ now (statsKey j) "max_time" (tl.format t) _ _ h3
      have h5 := lookup_put_live ((db.put (statsKey j)
        { value := RedisValue.hash (statsHash (formatInt ((k : Int) + 1)) (tl.format m)
            (tl.format M)), expireAt := some deadline }).put (statsKey j)
        { value := RedisValue.hash (statsHash (formatInt ((k : Int) + 1)) (tl.format t)
            (tl.format M)), expireAt := some deadline }) now (statsKey j)
        { value := RedisValue.hash (hashSet (statsHash (formatInt ((k : Int) + 1))
            (tl.format t) (tl.format M)) "max_time" (tl.format t)),
          expireAt := some deadline } (liveAt_deadline _ _ _ hlive)
      simp only [if_pos c2, h4, hmax, redisExpire_live _ now (statsKey j) DefaultTTL _ h5,
        Store.put_same, true_and]
      rfl
    · have hmax : max M t = M := max_eq_left (not_lt.mp c2)
      simp only [if_neg c2, hmax, redisExpire_live _ now (statsKey j) DefaultTTL _ h3,
        Store.put_same, true_and]
  · have hmin : min m t = m := min_eq_left (not_lt.mp c1)
    simp only [if_neg c1, hmin]
    by_cases c2 : M < t
    · have hmax : max M t = t := max_eq_right (le_of_lt c2)
      have h4 := hsetIgnoringResult_hash _ now (statsKey j) "max_time" (tl.format t) _ _ h1
      have h5 := lookup_put_live (db.put (statsKey j)
        { value := RedisValue.hash (statsHash (formatInt ((k : Int) + 1)) (tl.format m)
            (tl.format M)), expireAt := some deadline }) now (statsKey j)
        { value := RedisValue.hash (hashSet (statsHash (formatInt ((k : Int) + 1))
            (tl.format m) (tl.format M)) "max_time" (tl.format t)),
          expireAt := some deadline } (liveAt_deadline _ _ _ hlive)
      simp only [if_pos c2, h4, hmax, redisExpire_live _ now (statsKey j) DefaultTTL _ h5,
        Store.put_same, true_and]
      rfl
    · have hmax : max M t = M := max_eq_left (not_lt.mp c2)
      simp only [if_neg c2, hmax, redisExpire_live _ now (statsKey j) DefaultTTL _ h1,
        Store.put_same, true_and]

/-! ### `UpdateStats`, a run of calls -/

theorem runsBefore_of_noExpiryBetween (rest : List (Nat × Time)) :
    ∀ (now g : Nat), noExpiryBetween (now :: (rest.map Prod.fst ++ [g])) →
      runsBefore (now + DefaultTTL) rest g := by
  induction rest with
  | nil => intro now g h; exact h.1
  | cons c rest ih =>
    intro now g h
    obtain ⟨c1, c2⟩ := c
    exact ⟨h.1, ih c1 g h.2⟩

theorem GetStats_of_hash (tl : TimeLayout) (db : Store) (g : Nat) (j : String) (k : Nat)
    (a b : String) (deadline : Nat)
    (hdb : db (statsKey j) = some
      { value := RedisValue.hash (statsHash (formatInt (k : Int)) a b),
        expireAt := some deadline })
    (hlive : g < deadline) (hk : (k : Int) ≤ maxInt64) :
    GetStats tl db g j = Except.ok
      { Count := (k : Int), MinTime := tl.parseOrZero a, MaxTime := tl.parseOrZero b } := by
  have h0 := Store.lookup_of_live db g (statsKey j) _ hdb (liveAt_deadline _ _ _ hlive)
  have e0 : List.lookup "count" (statsHash (formatInt (k : Int)) a b)
      = some (formatInt (k : Int)) := rfl
  have e1 : List.lookup "min_time" (statsHash (formatInt (k : Int)) a b) = some a := rfl
  have e2 : List.lookup "max_time" (statsHash (formatInt (k : Int)) a b) = some b := rfl
  have e3 : (statsHash (formatInt (k : Int)) a b).length = 3 := rfl
  simp [GetStats, redisHGetAll, h0, e0, e1, e2, e3, AtoiValue_formatInt_ofNat k hk]

/-- Starting from a statistics hash that holds the count, minimum and maximum
of the instants `seen`, a run of further merges succeeds and leaves the hash
holding the count, minimum and maximum of all the instants merged. -/
theorem updateStatsSeq_inv (tl : TimeLayout) (j : String) :
    ∀ (rest : List (Nat × Time)) (db : Store) (seen : List Time) (k : Nat) (m M : Time)
      (deadline g : Nat),
      db (statsKey j) = some
        { value := RedisValue.hash (statsHash (formatInt (k : Int)) (tl.format m) (tl.format M)),
          expireAt := some deadline } →
      runsBefore deadline rest g →
      ((k + rest.length : Nat) : Int) ≤ maxInt64 →
      (m ∈ seen ∧ ∀ t ∈ seen, m ≤ t) →
      (M ∈ seen ∧ ∀ t ∈ seen, t ≤ M) →
      (∀ t ∈ seen, tl.parse (tl.format t) = some t) →
      (∀ c ∈ rest, tl.parse (tl.format c.2) = some c.2) →
      ∃ (db1 : Store) (m1 M1 : Time) (deadline1 : Nat),
        updateStatsSeq tl j db rest = Except.ok db1 ∧
        db1 (statsKey j) = some
          { value := RedisValue.hash
              (statsHash (formatInt ((k + rest.length : Nat) : Int)) (tl.format m1) (tl.format M1)),
            expireAt := some deadline1 } ∧
        g < deadline1 ∧
        (m1 ∈ seen ++ rest.map Prod.snd ∧ ∀ t ∈ seen ++ rest.map Prod.snd, m1 ≤ t) ∧
        (M1 ∈ seen ++ rest.map Prod.snd ∧ ∀ t ∈ seen ++ rest.map Prod.snd, t ≤ M1) := by
  intro rest
  induction rest with
  | nil =>
    intro db seen k m M deadline g hdb hrun _ hm hM _ _
    refine ⟨db, m, M, deadline, rfl, ?_, hrun, ?_, ?_⟩
    · simpa using hdb
    · simpa using hm
    · simpa using hM
  | cons c rest ih =>
    intro db seen k m M deadline g hdb hrun hk hm hM hseen hrest
    obtain ⟨now, t⟩ := c
    have hk1 : (k : Int) + 1 ≤ maxInt64 := by
      have : ((k + (rest.length + 1) : Nat) : Int) ≤ maxInt64 := by simpa using hk
      push_cast at this
      omega
    have ht : tl.parse (tl.format t) = some t := hrest (now, t) (List.mem_cons_self _ _)
    obtain ⟨hnone, hnext⟩ := UpdateStats_next tl db now j t k m M deadline hdb hrun.1 hk1
      (hseen m hm.1) (hseen M hM.1)
    have hstep : updateStatsSeq tl j db ((now, t) :: rest) =
        updateStatsSeq tl j (UpdateStats tl db now j t).2 rest := by
      have hpair : UpdateStats tl db now j t = (none, (UpdateStats tl db now j t).2) :=
        Prod.ext hnone rfl
      rw [updateStatsSeq]
      rw [hpair]
    have hcast : ((k : Int) + 1) = ((k + 1 : Nat) : Int) := by push_cast; rfl
    rw [hcast] at hnext
    have hm1 : min m t ∈ seen ++ [t] ∧ ∀ u ∈ seen ++ [t], min m t ≤ u := by
      constructor
      · rcases min_choice m t with h | h
        · rw [h]; exact List.mem_append_left _ hm.1
        · rw [h]; simp
      · intro u hu
        rcases List.mem_append.mp hu with h | h
        · exact le_trans (min_le_left m t) (hm.2 u h)
        · have : u = t := by simpa using h
          rw [this]; exact min_le_right m t
    have hM1 : max M t ∈ seen ++ [t] ∧ ∀ u ∈ seen ++ [t], u ≤ max M t := by
      constructor
      · rcases max_choice M t with h | h
        · rw [h]; exact List.mem_append_left _ hM.1
        · rw [h]; simp
      · intro u hu
        rcases List.mem_append.mp hu with h | h
        · exact le_trans (hM.2 u h) (le_max_left M t)
        · have : u = t := by simpa using h
          rw [this]; exact le_max_right M t
    have hseen1 : ∀ u ∈ seen ++ [t], tl.parse (tl.format u) = some u := by
      intro u hu
      rcases List.mem_append.mp hu with h | h
      · exact hseen u h
      · have : u = t := by simpa using h
        rw [this]; exact ht
    have hlen : ((k + 1 + rest.length : Nat) : Int) ≤ maxInt64 := by
      have : k + 1 + rest.length = k + (rest.length + 1) := by omega
      rw [this]; simpa using hk
    obtain ⟨db1, m1, M1, d1, h1, h2, h3, h4, h5⟩ :=
      ih (UpdateStats tl db now j t).2 (seen ++ [t]) (k + 1) (min m t) (max M t)
        (now + DefaultTTL) g hnext hrun.2 hlen hm1 hM1 hseen1
        (fun c hc => hrest c (List.mem_cons_of_mem _ hc))
    have hl : k + 1 + rest.length = k + ((now, t) :: rest).length := by
      simp only [List.length_cons]; omega
    have happ : seen ++ [t] ++ rest.map Prod.snd =
        seen ++ ((now, t) :: rest).map Prod.snd := by simp
    refine ⟨db1, m1, M1, d1, hstep.trans h1, ?_, h3, ?_, ?_⟩
    · rw [← hl]; exact h2
    · rw [← happ]; exact h4
    · rw [← happ]; exact h5

/-- One run of merges on a job without statistics, read back by `GetStats`. -/
theorem updateStatsSeq_GetStats (tl : TimeLayout) (j : String) (db : Store)
    (calls : List (Nat × Time)) (g : Nat)
    (hne : calls ≠ [])
    (hfresh : db (statsKey j) = none)
    (hrt : ∀ c ∈ calls, tl.parse (tl.format c.2) = some c.2)
    (hclk : noExpiryBetween (calls.map Prod.fst ++ [g]))
    (hlen : (calls.length : Int) ≤ maxInt64) :
    ∃ (db1 : Store) (st : RealTimeStats),
      updateStatsSeq tl j db calls = Except.ok db1 ∧
      GetStats tl db1 g j = Except.ok st ∧
      st.Count = (calls.length : Int) ∧
      (st.MinTime ∈ calls.map Prod.snd ∧ ∀ t ∈ calls.map Prod.snd, st.MinTime ≤ t) ∧
      (st.MaxTime ∈ calls.map Prod.snd ∧ ∀ t ∈ calls.map Prod.snd, t ≤ st.MaxTime) := by
  cases calls with
  | nil => exact absurd rfl hne
  | cons c rest =>
    obtain ⟨now, t⟩ := c
    have hl0 : db.lookup now (statsKey j) = none := by simp [Store.lookup, hfresh]
    obtain ⟨hnone, hfirst⟩ := UpdateStats_first tl db now j t hl0
    have hstep : updateStatsSeq tl j db ((now, t) :: rest) =
        updateStatsSeq tl j (UpdateStats tl db now j t).2 rest := by
      have hpair : UpdateStats tl db now j t = (none, (UpdateStats tl db now j t).2) :=
        Prod.ext hnone rfl
      rw [updateStatsSeq]
      rw [hpair]
    have ht : tl.parse (tl.format t) = some t := hrt (now, t) (List.mem_cons_self _ _)
    have hrun : runsBefore (now + DefaultTTL) rest g :=
      runsBefore_of_noExpiryBetween rest now g (by simpa using hclk)
    have hlen1 : ((1 + rest.length : Nat) : Int) ≤ maxInt64 := by
      have : 1 + rest.length = ((now, t) :: rest).length := by
        simp only [List.length_cons]; omega
      rw [this]; exact hlen
    have hone : formatInt 1 = formatInt ((1 : Nat) : Int) := rfl
    rw [hone] at hfirst
    obtain ⟨db1, m1, M1, d1, h1, h2, h3, h4, h5⟩ :=
      updateStatsSeq_inv tl j rest (UpdateStats tl db now j t).2 [t] 1 t t
        (now + DefaultTTL) g hfirst hrun hlen1 (by simp) (by simp)
        (by intro u hu; have : u = t := by simpa using hu
            rw [this]; exact ht)
        (fun c hc => hrt c (List.mem_cons_of_mem _ hc))
    have happ : [t] ++ rest.map Prod.snd = ((now, t) :: rest).map Prod.snd := by simp
    rw [happ] at h4 h5
    have hcnt : 1 + rest.length = ((now, t) :: rest).length := by
      simp only [List.length_cons]; omega
    rw [hcnt] at h2
    have hpm : tl.parseOrZero (tl.format m1) = m1 := by
      obtain ⟨c, hc, hc2⟩ := List.mem_map.mp h4.1
      have := hrt c hc
      rw [hc2] at this
      simp [TimeLayout.parseOrZero, this]
    have hpM : tl.parseOrZero (tl.format M1) = M1 := by
      obtain ⟨c, hc, hc2⟩ := List.mem_map.mp h5.1
      have := hrt c hc
      rw [hc2] at this
      simp [TimeLayout.parseOrZero, this]
    have hget := GetStats_of_hash tl db1 g j ((now, t) :: rest).length _ _ d1 h2 h3 hlen
    rw [hpm, hpM] at hget
    exact ⟨db1, _, hstep.trans h1, hget, rfl, h4, h5⟩

/-! ### Claim C1 -/

/-- C1, as amended. For a job `j` without statistics and a non-empty run `calls`
of `UpdateStats(j, t)` calls made one after the other, no expiry elapsing,
whose instants are read back by `time.Parse` from the text `Format` writes for
them, and whose number fits the 64-bit counter of `HINCRBY`: every call
succeeds and `GetStats(j)` returns `Count` = the number of calls, `MinTime` =
the least and `MaxTime` = the greatest of the merged instants, so
`MinTime ≤ MaxTime`; and a run `calls2` that merges the same instants in any
other order returns the very same statistics. -/
theorem C1_update_stats_count_min_max (tl : TimeLayout) (j : String) (db : Store)
    (calls calls2 : List (Nat × Time)) (g g2 : Nat)
    (hne : calls ≠ [])
    (hfresh : db (statsKey j) = none)
    (hrt : ∀ c ∈ calls, tl.parse (tl.format c.2) = some c.2)
    (hperm : (calls2.map Prod.snd).Perm (calls.map Prod.snd))
    (hclk : noExpiryBetween (calls.map Prod.fst ++ [g]))
    (hclk2 : noExpiryBetween (calls2.map Prod.fst ++ [g2]))
    (hlen : (calls.length : Int) ≤ maxInt64) :
    ∃ st : RealTimeStats,
      (∃ db1, updateStatsSeq tl j db calls = Except.ok db1 ∧
        GetStats tl db1 g j = Except.ok st) ∧
      (∃ db2, updateStatsSeq tl j db calls2 = Except.ok db2 ∧
        GetStats tl db2 g2 j = Except.ok st) ∧
      st.Count = (calls.length : Int) ∧
      (st.MinTime ∈ calls.map Prod.snd ∧ ∀ t ∈ calls.map Prod.snd, st.MinTime ≤ t) ∧
      (st.MaxTime ∈ calls.map Prod.snd ∧ ∀ t ∈ calls.map Prod.snd, t ≤ st.MaxTime) ∧
      st.MinTime ≤ st.MaxTime := by
  have hlen2 : calls2.length = calls.length := by
    have := hperm.length_eq
    simpa using this
  have hne2 : calls2 ≠ [] := by
    intro h
    rw [h] at hlen2
    exact hne (List.length_eq_zero.mp hlen2.symm)
  have hrt2 : ∀ c ∈ calls2, tl.parse (tl.format c.2) = some c.2 := by
    intro c hc
    have h1 : c.2 ∈ calls2.map Prod.snd := List.mem_map_of_mem _ hc
    obtain ⟨c1, hc1, hc2⟩ := List.mem_map.mp (hperm.mem_iff.mp h1)
    have := hrt c1 hc1
    rw [hc2] at this
    exact this
  obtain ⟨db1, st, h1, h2, h3, h4, h5⟩ :=
    updateStatsSeq_GetStats tl j db calls g hne hfresh hrt hclk hlen
  obtain ⟨db2, st2, k1, k2, k3, k4, k5⟩ :=
    updateStatsSeq_GetStats tl j db calls2 g2 hne2 hfresh hrt2 hclk2 (by rw [hlen2]; exact hlen)
  have hmin : st2.MinTime = st.MinTime :=
    le_antisymm (k4.2 _ (hperm.mem_iff.mpr h4.1)) (h4.2 _ (hperm.mem_iff.mp k4.1))
  have hmax : st2.MaxTime = st.MaxTime :=
    le_antisymm (h5.2 _ (hperm.mem_iff.mp k5.1)) (k5.2 _ (hperm.mem_iff.mpr h5.1))
  have hst : st2 = st := by
    cases st; cases st2
    simp only [RealTimeStats.mk.injEq]
    simp only at hmin hmax h3 k3
    exact ⟨by rw [k3, h3, hlen2], hmin, hmax⟩
  refine ⟨st, ⟨db1, h1, h2⟩, ⟨db2, k1, ?_⟩, h3, h4, h5, h4.2 _ h5.1⟩
  rw [← hst]; exact k2

/-- C1 at a concrete run under the layout `time.RFC3339Nano` in UTC: three
merges of instants of 14 November 2023 and the same instants merged in
another order. -/
theorem C1_update_stats_count_min_max_witness :
    ∃ st : RealTimeStats,
      (∃ db1, updateStatsSeq rfc3339NanoUTC "job" emptyStore
          [(0, 63835596800000000005), (10, 63835596800000000003), (20, 63835596800000000009)]
          = Except.ok db1 ∧
        GetStats rfc3339NanoUTC db1 30 "job" = Except.ok st) ∧
      (∃ db2, updateStatsSeq rfc3339NanoUTC "job" emptyStore
          [(7, 63835596800000000009), (8, 63835596800000000005), (9, 63835596800000000003)]
          = Except.ok db2 ∧
        GetStats rfc3339NanoUTC db2 12 "job" = Except.ok st) ∧
      st.Count = 3 ∧
      (st.MinTime ∈ [(63835596800000000005 : Time), 63835596800000000003, 63835596800000000009] ∧
        ∀ t ∈ [(63835596800000000005 : Time), 63835596800000000003, 63835596800000000009],
          st.MinTime ≤ t) ∧
      (st.MaxTime ∈ [(63835596800000000005 : Time), 63835596800000000003, 63835596800000000009] ∧
        ∀ t ∈ [(63835596800000000005 : Time), 63835596800000000003, 63835596800000000009],
          t ≤ st.MaxTime) ∧
      st.MinTime ≤ st.MaxTime :=
  C1_update_stats_count_min_max rfc3339NanoUTC "job" emptyStore
    [(0, 63835596800000000005), (10, 63835596800000000003), (20, 63835596800000000009)]
    [(7, 63835596800000000009), (8, 63835596800000000005), (9, 63835596800000000003)] 30 12
    (by decide) rfl (by decide) (by decide)
    ⟨by decide, by decide, by decide, trivial⟩ ⟨by decide, by decide, by decide, trivial⟩
    (by decide)

/-- C1 as stated fails. The instant 315537897600000000000 is 1 January 10000,
00:00 UTC, whose text `10000-01-01T00:00:00Z` `time.Parse` rejects, and
63835596800000000000 is 14 November 2023, 22:13:20 UTC.  Merging the earlier
then the later instant for a fresh job, `GetStats` returns as `MaxTime` the
zero `Time` instead of the later instant, so that `MinTime > MaxTime`; merging
them in the other order it returns the zero `Time` as `MinTime` and the
earlier instant as `MaxTime`, a different result; merging the later instant
alone it returns the zero `Time` twice. -/
theorem C1_counterexample_year_10000 :
    rfc3339NanoUTC.format 315537897600000000000 = "10000-01-01T00:00:00Z" ∧
    rfc3339NanoUTC.parse "10000-01-01T00:00:00Z" = none ∧
    rfc3339NanoUTC.format 63835596800000000000 = "2023-11-14T22:13:20Z" ∧
    GetStatsAfter rfc3339NanoUTC "job-1" emptyStore
        [(0, 63835596800000000000), (1, 315537897600000000000)] 2 =
      Except.ok { Count := 2, MinTime := 63835596800000000000, MaxTime := zeroTime } ∧
    GetStatsAfter rfc3339NanoUTC "job-1" emptyStore
        [(0, 315537897600000000000), (1, 63835596800000000000)] 2 =
      Except.ok { Count := 2, MinTime := zeroTime, MaxTime := 63835596800000000000 } ∧
    GetStatsAfter rfc3339NanoUTC "job-1" emptyStore [(0, 315537897600000000000)] 1 =
      Except.ok { Count := 1, MinTime := zeroTime, MaxTime := zeroTime } ∧
    zeroTime < (63835596800000000000 : Time) ∧
    (63835596800000000000 : Time) < 315537897600000000000 :=
  ⟨by decide, by decide, by decide, rfl, rfl, rfl, by decide, by decide⟩

/-! ### Claims C2 and C3: `Publish` -/

theorem publishLoop_values (primaryKey : String) (conf : Configuration) :
    ∀ (lines : List Record) (fuel : Nat) (sent : List Record), lines.length < fuel →
      publishLoop primaryKey conf fuel (NewDecoder (lines.map JsonText.value)) sent =
        (sent ++ lines.map (stamp primaryKey conf), true) := by
  intro lines
  induction lines with
  | nil =>
    intro fuel sent h
    cases fuel with
    | zero => exact absurd h (by simp)
    | succ fuel => simp [publishLoop, NewDecoder, Decoder.Decode]
  | cons rec rest ih =>
    intro fuel sent h
    cases fuel with
    | zero => exact absurd h (by simp)
    | succ fuel =>
      have h1 : rest.length < fuel := by simpa using h
      have h2 := ih fuel (sent ++ [stamp primaryKey conf rec]) h1
      simp only [NewDecoder] at h2
      simp only [publishLoop, NewDecoder, Decoder.Decode, List.map_cons]
      rw [show ({ rec with PrimaryKey := primaryKey, Configuration := conf } : Record)
        = stamp primaryKey conf rec from rfl]
      rw [h2]
      simp

/-- C2. On a record section of `k` well-formed lines, `Publish` sends exactly
`k` records, in feed order, the `i`-th with the row identifier and payload of
the `i`-th line and with the job identifier and configuration it was given,
whatever the line says about them, and then returns at end of stream; `k + 1`
iterations of the loop are enough. -/
theorem C2_publish_wellformed_feed (primaryKey : String) (conf : Configuration)
    (lines : List Record) (fuel : Nat) (hfuel : lines.length < fuel) :
    Publish fuel primaryKey (lines.map JsonText.value) conf =
      (lines.map (stamp primaryKey conf), true) ∧
    (Publish fuel primaryKey (lines.map JsonText.value) conf).1.length = lines.length ∧
    ∀ (i : Nat) (line : Record), lines[i]? = some line →
      (Publish fuel primaryKey (lines.map JsonText.value) conf).1[i]? =
        some { PrimaryKey := primaryKey, RowKey := line.RowKey, Payload := line.Payload,
               Configuration := conf } := by
  have h := publishLoop_values primaryKey conf lines fuel [] hfuel
  have hp : Publish fuel primaryKey (lines.map JsonText.value) conf =
      (lines.map (stamp primaryKey conf), true) := by
    simpa [Publish] using h
  refine ⟨hp, ?_, ?_⟩
  · rw [hp]; simp
  · intro i line hi
    rw [hp]
    simp [List.getElem?_map, hi, stamp]

/-- C2 on a feed of two lines, the first of which carries fields of its own
for the job identifier and the configuration. -/
theorem C2_publish_wellformed_feed_witness :
    Publish 3 "job-1"
        ([{ PrimaryKey := "other", RowKey := 0, Payload := "payload0",
            Configuration := { PrimaryKey := "x", Protocol := "ftp", Host := "", Path := "",
                               Port := "", Metadata := [] } },
          { PrimaryKey := "", RowKey := 1, Payload := "payload1",
            Configuration := { PrimaryKey := "", Protocol := "", Host := "", Path := "",
                               Port := "", Metadata := [] } }].map JsonText.value)
        { PrimaryKey := "job-1", Protocol := "http", Host := "localhost", Path := "/upload",
          Port := "8080", Metadata := [] } =
      ([{ PrimaryKey := "job-1", RowKey := 0, Payload := "payload0",
          Configuration := { PrimaryKey := "job-1", Protocol := "http", Host := "localhost",
                             Path := "/upload", Port := "8080", Metadata := [] } },
        { PrimaryKey := "job-1", RowKey := 1, Payload := "payload1",
          Configuration := { PrimaryKey := "job-1", Protocol := "http", Host := "localhost",
                             Path := "/upload", Port := "8080", Metadata := [] } }], true) :=
  (C2_publish_wellformed_feed "job-1"
    { PrimaryKey := "job-1", Protocol := "http", Host := "localhost", Path := "/upload",
      Port := "8080", Metadata := [] }
    [{ PrimaryKey := "other", RowKey := 0, Payload := "payload0",
       Configuration := { PrimaryKey := "x", Protocol := "ftp", Host := "", Path := "",
                          Port := "", Metadata := [] } },
     { PrimaryKey := "", RowKey := 1, Payload := "payload1",
       Configuration := { PrimaryKey := "", Protocol := "", Host := "", Path := "",
                          Port := "", Metadata := [] } }]
    3 (by decide)).1

theorem publishLoop_stuck (primaryKey : String) (conf : Configuration) (input : List JsonText)
    (err : DecodeError) (herr : err ≠ DecodeError.eof) :
    ∀ (fuel : Nat) (sent : List Record),
      publishLoop primaryKey conf fuel { input := input, err := some err } sent = (sent, false) := by
  intro fuel
  induction fuel with
  | zero => intro sent; rfl
  | succ fuel ih =>
    intro sent
    simp only [publishLoop, Decoder.Decode, if_neg herr]
    exact ih sent

/-- A line with a member of the wrong type is skipped: the records before and
after it are sent, in order, and the loop returns at end of stream. -/
theorem Publish_skips_mistyped (primaryKey : String) (conf : Configuration)
    (before after : List Record) :
    ∀ (fuel : Nat) (sent : List Record), before.length + after.length + 1 < fuel →
      publishLoop primaryKey conf fuel
          (NewDecoder (before.map JsonText.value ++ JsonText.mistyped :: after.map JsonText.value))
          sent =
        (sent ++ before.map (stamp primaryKey conf) ++ after.map (stamp primaryKey conf), true) := by
  induction before with
  | nil =>
    intro fuel sent h
    cases fuel with
    | zero => exact absurd h (by simp)
    | succ fuel =>
      have h1 : after.length < fuel := by simp at h; omega
      have h2 := publishLoop_values primaryKey conf after fuel sent h1
      simp only [NewDecoder] at h2
      simp [publishLoop, NewDecoder, Decoder.Decode, h2]
  | cons rec rest ih =>
    intro fuel sent h
    cases fuel with
    | zero => exact absurd h (by simp)
    | succ fuel =>
      have h1 : rest.length + after.length + 1 < fuel := by simp at h; omega
      have h2 := ih fuel (sent ++ [stamp primaryKey conf rec]) h1
      simp only [NewDecoder] at h2
      simp only [publishLoop, NewDecoder, Decoder.Decode, List.map_cons, List.cons_append]
      rw [show ({ rec with PrimaryKey := primaryKey, Configuration := conf } : Record)
        = stamp primaryKey conf rec from rfl]
      rw [h2]
      simp

/-- C3, what the code does. After a line that is not valid JSON, or a record cut
short by the end of the stream, `Publish` sends none of the well-formed records
that follow and never reaches its `break`, however many iterations it is
given: `Decode` returns the saved error again and again. -/
theorem C3_publish_malformed_line_never_ends (primaryKey : String) (conf : Configuration)
    (later : List Record) (fuel : Nat) :
    Publish fuel primaryKey (JsonText.invalid :: later.map JsonText.value) conf = ([], false) ∧
    Publish fuel primaryKey (JsonText.truncated :: later.map JsonText.value) conf = ([], false) := by
  cases fuel with
  | zero => exact ⟨rfl, rfl⟩
  | succ fuel =>
    constructor
    · simp only [Publish, publishLoop, NewDecoder, Decoder.Decode]
      exact publishLoop_stuck primaryKey conf _ _ (by decide) fuel []
    · simp only [Publish, publishLoop, NewDecoder, Decoder.Decode]
      exact publishLoop_stuck primaryKey conf _ _ (by decide) fuel []

/-! ### Claims C5 and C6: `Task` and `Consumer` -/

/-- C5. For every payload and every configuration whose protocol is neither
`http` nor `https`, `Task` returns an empty body, status code 0 and the error
`unsupported protocol: <protocol>`, and issues no outbound request. -/
theorem C5_task_unsupported_protocol (post : HttpRequest → PostResult) (payload : String)
    (conf : Configuration) (h1 : conf.Protocol ≠ "http") (h2 : conf.Protocol ≠ "https") :
    Task post payload conf =
      { respBody := "", statusCode := 0,
        err := some ("unsupported protocol: " ++ conf.Protocol), sent := [] } := by
  simp [Task, h1, h2]

/-- C5 for the protocol `ftp`, on a network that would answer 200. -/
theorem C5_task_unsupported_protocol_witness :
    Task (fun _ => PostResult.response 200 "ok") "payload0"
        { PrimaryKey := "job-1", Protocol := "ftp", Host := "localhost", Path := "/upload",
          Port := "8080", Metadata := [] } =
      { respBody := "", statusCode := 0, err := some "unsupported protocol: ftp", sent := [] } :=
  C5_task_unsupported_protocol (fun _ => PostResult.response 200 "ok") "payload0"
    { PrimaryKey := "job-1", Protocol := "ftp", Host := "localhost", Path := "/upload",
      Port := "8080", Metadata := [] } (by decide) (by decide)

/-- Every error result of `Task` has an empty body. -/
theorem Task_err_body (post : HttpRequest → PostResult) (payload : String)
    (conf : Configuration) (msg : String) (h : (Task post payload conf).err = some msg) :
    (Task post payload conf).respBody = "" := by
  by_cases hp : conf.Protocol ≠ "http" ∧ conf.Protocol ≠ "https"
  · simp [Task, hp]
  · simp only [Task, if_neg hp] at h ⊢
    split at h <;> simp_all

theorem consumerLoop_length (net : Nat → HttpRequest → PostResult) :
    ∀ (recs : List Record) (i : Nat), (consumerLoop net i recs).length = recs.length := by
  intro recs
  induction recs with
  | nil => intro i; rfl
  | cons rec rest ih => intro i; simp [consumerLoop, ih]

theorem consumerLoop_getElem? (net : Nat → HttpRequest → PostResult) :
    ∀ (recs : List Record) (i k : Nat) (rec : Record), recs[k]? = some rec →
      (consumerLoop net i recs)[k]? = some (consumeRecord (net (i + k)) rec) := by
  intro recs
  induction recs with
  | nil => intro i k rec h; simp at h
  | cons r rest ih =>
    intro i k rec h
    cases k with
    | zero =>
      simp only [List.getElem?_cons_zero, Option.some.injEq] at h
      simp [consumerLoop, h]
    | succ k =>
      simp only [List.getElem?_cons_succ] at h
      have := ih (i + 1) k rec h
      simp only [consumerLoop, List.getElem?_cons_succ]
      rw [this, show i + 1 + k = i + (k + 1) from by omega]

/-- C6. `Consumer` sends exactly one outcome per record it receives, in order:
the outcome of the `k`-th record carries that record's job and row identifiers,
its status is `failed` when `Task` returned an error and `success` otherwise,
its error text is empty unless the status is `failed`, and its response is a
string that is empty whenever the error text is not. -/
theorem C6_consumer_one_outcome_per_record (net : Nat → HttpRequest → PostResult)
    (recordsQ : List Record) :
    (Consumer net recordsQ).length = recordsQ.length ∧
    ∀ (k : Nat) (rec : Record), recordsQ[k]? = some rec →
      ∃ o : ResponseStatus, (Consumer net recordsQ)[k]? = some o ∧
        o.PrimaryKey = rec.PrimaryKey ∧ o.RowKey = rec.RowKey ∧
        ((Task (net k) rec.Payload rec.Configuration).err ≠ none → o.Status = "failed") ∧
        ((Task (net k) rec.Payload rec.Configuration).err = none → o.Status = "success") ∧
        (o.Error ≠ "" → o.Status = "failed") ∧
        (∃ body : String, o.Response = GoAny.string body ∧ ¬ (body ≠ "" ∧ o.Error ≠ "")) := by
  refine ⟨consumerLoop_length net recordsQ 0, ?_⟩
  intro k rec hk
  have h := consumerLoop_getElem? net recordsQ 0 k rec hk
  rw [Nat.zero_add] at h
  refine ⟨consumeRecord (net k) rec, h, rfl, rfl, ?_, ?_, ?_, ?_⟩
  · intro he
    cases hr : (Task (net k) rec.Payload rec.Configuration).err with
    | none => exact absurd hr he
    | some msg => simp [consumeRecord, hr]
  · intro he
    simp [consumeRecord, he]
  · intro he
    cases hr : (Task (net k) rec.Payload rec.Configuration).err with
    | none => simp [consumeRecord, hr] at he
    | some msg => simp [consumeRecord, hr]
  · refine ⟨(Task (net k) rec.Payload rec.Configuration).respBody, rfl, ?_⟩
    rintro ⟨hb, he⟩
    cases hr : (Task (net k) rec.Payload rec.Configuration).err with
    | none => simp [consumeRecord, hr] at he
    | some msg => exact hb (Task_err_body _ _ _ msg hr)

/-- C6 on two records, one with an unsupported protocol and one delivered. -/
theorem C6_consumer_one_outcome_per_record_witness :
    (Consumer (fun _ _ => PostResult.response 200 "ok")
        [{ PrimaryKey := "job-1", RowKey := 0, Payload := "payload0",
           Configuration := { PrimaryKey := "job-1", Protocol := "ftp", Host := "localhost",
                              Path := "/upload", Port := "8080", Metadata := [] } },
         { PrimaryKey := "job-1", RowKey := 1, Payload := "payload1",
           Configuration := { PrimaryKey := "job-1", Protocol := "http", Host := "localhost",
                              Path := "/upload", Port := "8080", Metadata := [] } }]).length
      = 2 :=
  (C6_consumer_one_outcome_per_record (fun _ _ => PostResult.response 200 "ok")
    [{ PrimaryKey := "job-1", RowKey := 0, Payload := "payload0",
       Configuration := { PrimaryKey := "job-1", Protocol := "ftp", Host := "localhost",
                          Path := "/upload", Port := "8080", Metadata := [] } },
     { PrimaryKey := "job-1", RowKey := 1, Payload := "payload1",
       Configuration := { PrimaryKey := "job-1", Protocol := "http", Host := "localhost",
                          Path := "/upload", Port := "8080", Metadata := [] } }]).1

/-! ### Claims C4, C8 and C10: `Run` and `readConfiguration` -/

/-- C4. On a feed that is empty, or whose first line does not parse as a
configuration, `Run` returns an error and starts no `Publish` task, so no
record of the feed reaches the work queue. -/
theorem C4_run_fatal_header (unmarshal : List Nat → Except String Configuration)
    (fs : String → Except String (List Nat)) (filePath : String) (data : List Nat)
    (hopen : fs filePath = Except.ok data)
    (hbad : data = [] ∨
      ∃ line err, scanFirstLine data = ScanResult.token line ∧ unmarshal line = Except.error err) :
    ∃ msg : String, Run unmarshal fs filePath = (some msg, []) := by
  rcases hbad with h | ⟨line, err, h1, h2⟩
  · subst h
    have hs : scanFirstLine [] = ScanResult.eof := rfl
    simp only [Run, hopen, readConfiguration, hs]
    exact ⟨_, rfl⟩
  · simp only [Run, hopen, readConfiguration, h1, h2]
    exact ⟨_, rfl⟩

/-- C4 on the feed of zero bytes. -/
theorem C4_run_fatal_header_witness :
    ∃ msg : String,
      Run (fun _ => Except.error "unexpected end of JSON input") (fun _ => Except.ok [])
        "/tmp/job-1.ndjson" = (some msg, []) :=
  C4_run_fatal_header (fun _ => Except.error "unexpected end of JSON input")
    (fun _ => Except.ok []) "/tmp/job-1.ndjson" [] rfl (Or.inl rfl)

theorem takeWhile_until (p : Nat → Bool) (x : Nat) :
    ∀ (l rest : List Nat), (∀ a ∈ l, p a = true) → p x = false →
      (l ++ x :: rest).takeWhile p = l := by
  intro l
  induction l with
  | nil => intro rest _ hx; simp [List.takeWhile, hx]
  | cons a l ih =>
    intro rest hl hx
    have ha : p a = true := hl a (List.mem_cons_self _ _)
    simp only [List.cons_append, List.takeWhile_cons, ha, if_true]
    rw [ih rest (fun b hb => hl b (List.mem_cons_of_mem _ hb)) hx]

theorem scanFirstLine_terminated (header rest : List Nat) (h10 : (10 : Nat) ∉ header)
    (hlen : header.length < MaxScanTokenSize) :
    scanFirstLine (header ++ 10 :: rest) = ScanResult.token (dropCR header) := by
  have htw : (header ++ 10 :: rest).takeWhile (fun b => b != 10) = header := by
    apply takeWhile_until
    · intro a ha
      have : a ≠ 10 := fun h => h10 (h ▸ ha)
      simpa using this
    · simp
  have hne : header ++ 10 :: rest ≠ [] := by simp
  simp only [scanFirstLine, if_neg hne, htw]
  have h1 : header.length < (header ++ 10 :: rest).length := by simp
  rw [if_pos h1, if_pos hlen]

/-- With a header ended by a single line feed the file is left at the first
byte of line two. -/
theorem readConfiguration_pos_lf (unmarshal : List Nat → Except String Configuration)
    (name : String) (header rest : List Nat) (conf : Configuration)
    (h10 : (10 : Nat) ∉ header) (h13 : header.getLast? ≠ some 13)
    (hlen : header.length < MaxScanTokenSize)
    (hparse : unmarshal header = Except.ok conf) :
    ∃ conf1 f1,
      readConfiguration unmarshal { name := name, data := header ++ 10 :: rest, pos := 0 } =
        Except.ok (conf1, f1) ∧
      f1.pos = header.length + 1 ∧ f1.data.drop f1.pos = rest := by
  have hs := scanFirstLine_terminated header rest h10 hlen
  have hd : dropCR header = header := by simp [dropCR, h13]
  rw [hd] at hs
  refine ⟨{ conf with PrimaryKey := TrimSuffix (Base name) ".ndjson" },
    { name := name, data := header ++ 10 :: rest, pos := header.length + 1 },
    by simp only [readConfiguration, hs, hparse], rfl, ?_⟩
  show (header ++ 10 :: rest).drop (header.length + 1) = rest
  rw [show header ++ 10 :: rest = (header ++ [10]) ++ rest by simp]
  exact List.drop_left' (by simp)

theorem takeWhile_all (p : Nat → Bool) :
    ∀ (l : List Nat), (∀ a ∈ l, p a = true) → l.takeWhile p = l := by
  intro l
  induction l with
  | nil => intro _; rfl
  | cons a l ih =>
    intro hl
    have ha : p a = true := hl a (List.mem_cons_self _ _)
    simp only [List.takeWhile_cons, ha, if_true]
    rw [ih (fun b hb => hl b (List.mem_cons_of_mem _ hb))]

/-- With a header that has no line terminator (the feed is the header alone)
the file is left one byte past its end. -/
theorem readConfiguration_pos_unterminated
    (unmarshal : List Nat → Except String Configuration)
    (name : String) (header : List Nat) (conf : Configuration)
    (hne : header ≠ []) (h10 : (10 : Nat) ∉ header) (h13 : header.getLast? ≠ some 13)
    (hlen : header.length < MaxScanTokenSize)
    (hparse : unmarshal header = Except.ok conf) :
    ∃ conf1 f1,
      readConfiguration unmarshal { name := name, data := header, pos := 0 } =
        Except.ok (conf1, f1) ∧
      f1.pos = f1.data.length + 1 := by
  have htw : header.takeWhile (fun b => b != 10) = header := by
    apply takeWhile_all
    intro a ha
    have : a ≠ 10 := fun h => h10 (h ▸ ha)
    simpa using this
  have hd : dropCR header = header := by simp [dropCR, h13]
  have hs : scanFirstLine header = ScanResult.token header := by
    simp only [scanFirstLine, if_neg hne, htw, lt_irrefl, if_false, if_pos hlen, hd]
  exact ⟨{ conf with PrimaryKey := TrimSuffix (Base name) ".ndjson" },
    { name := name, data := header, pos := header.length + 1 },
    by simp only [readConfiguration, hs, hparse], rfl⟩

/-- C10, what the code does. With a header ended by carriage return and line
feed, `readConfiguration` succeeds and leaves the file at offset
`len(header) + 1`, which is the line feed of the header line: line two starts
one byte further, at `len(header) + 2`. -/
theorem C10_crlf_header_offset (unmarshal : List Nat → Except String Configuration)
    (name : String) (header rest : List Nat) (conf : Configuration)
    (h10 : (10 : Nat) ∉ header) (hlen : header.length + 1 < MaxScanTokenSize)
    (hparse : unmarshal header = Except.ok conf) :
    ∃ conf1 f1,
      readConfiguration unmarshal
          { name := name, data := header ++ 13 :: 10 :: rest, pos := 0 } =
        Except.ok (conf1, f1) ∧
      f1.pos = header.length + 1 ∧
      f1.data.drop f1.pos = 10 :: rest ∧
      f1.data.drop (header.length + 2) = rest := by
  have h10' : (10 : Nat) ∉ header ++ [13] := by simp [h10]
  have hs := scanFirstLine_terminated (header ++ [13]) rest h10' (by simpa using hlen)
  have hd : dropCR (header ++ [13]) = header := by simp [dropCR]
  rw [hd] at hs
  have hdata : header ++ 13 :: 10 :: rest = (header ++ [13]) ++ 10 :: rest := by simp
  refine ⟨{ conf with PrimaryKey := TrimSuffix (Base name) ".ndjson" },
    { name := name, data := header ++ 13 :: 10 :: rest, pos := header.length + 1 },
    ?_, rfl, ?_, ?_⟩
  · simp only [readConfiguration]
    rw [hdata, hs]
    simp only [hparse]
  · show (header ++ 13 :: 10 :: rest).drop (header.length + 1) = 10 :: rest
    rw [hdata]
    exact List.drop_left' (by simp)
  · show (header ++ 13 :: 10 :: rest).drop (header.length + 2) = rest
    rw [show header ++ 13 :: 10 :: rest = (header ++ [13, 10]) ++ rest by simp]
    exact List.drop_left' (by simp)

/-- C10 on the feed `{}\r\n{"id":0}\n`: the file is left at offset 3, on the
line feed, and line two starts at offset 4. -/
theorem C10_crlf_header_offset_witness :
    ∃ conf1 f1,
      readConfiguration
          (fun _ => Except.ok { PrimaryKey := "", Protocol := "", Host := "", Path := "",
                                Port := "", Metadata := [] })
          { name := "/tmp/job-1.ndjson",
            data := [123, 125] ++ 13 :: 10 :: [123, 34, 105, 100, 34, 58, 48, 125, 10],
            pos := 0 } =
        Except.ok (conf1, f1) ∧
      f1.pos = [123, 125].length + 1 ∧
      f1.data.drop f1.pos = 10 :: [123, 34, 105, 100, 34, 58, 48, 125, 10] ∧
      f1.data.drop ([123, 125].length + 2) = [123, 34, 105, 100, 34, 58, 48, 125, 10] :=
  C10_crlf_header_offset _ "/tmp/job-1.ndjson" [123, 125]
    [123, 34, 105, 100, 34, 58, 48, 125, 10] _ (by decide) (by decide) rfl

/-! ### Claim C8: the job identifier -/

theorem Base_dir_name (dir name : List Char) (hdir : dir.getLast? = some '/')
    (hname : '/' ∉ name) (hne : name ≠ []) :
    Base (String.mk (dir ++ name)) = String.mk name := by
  have hpath : String.mk (dir ++ name) ≠ "" := by
    intro h
    have h1 : (String.mk (dir ++ name)).data = ("" : String).data := by rw [h]
    have h2 : dir ++ name = [] := h1
    exact hne (List.append_eq_nil.mp h2).2
  have hrev : (dir ++ name).reverse = name.reverse ++ dir.reverse := List.reverse_append _ _
  have hdrop : (name.reverse ++ dir.reverse).dropWhile (fun c => decide (c = '/'))
      = name.reverse ++ dir.reverse := by
    cases hr : name.reverse with
    | nil => exact absurd (List.reverse_eq_nil_iff.mp hr) hne
    | cons a l =>
      have ha : a ∈ name := by
        have : a ∈ name.reverse := by rw [hr]; exact List.mem_cons_self _ _
        exact List.mem_reverse.mp this
      have hane : a ≠ '/' := fun h => hname (h ▸ ha)
      simp [List.dropWhile, hane]
  have hdirrev : ∃ l, dir.reverse = '/' :: l := by
    cases hd : dir.reverse with
    | nil =>
      have : dir = [] := List.reverse_eq_nil_iff.mp hd
      rw [this] at hdir
      simp at hdir
    | cons a l =>
      have h1 : dir.reverse.head? = some a := by rw [hd]; rfl
      rw [List.head?_reverse, hdir] at h1
      have : a = '/' := by simpa using h1.symm
      exact ⟨l, by rw [this]⟩
  obtain ⟨l, hl⟩ := hdirrev
  have htake : (name.reverse ++ dir.reverse).takeWhile (fun c => decide (c ≠ '/'))
      = name.reverse := by
    rw [hl]
    have hall : ∀ a ∈ name.reverse, (fun c => decide (c ≠ '/')) a = true := by
      intro a ha
      have : a ≠ '/' := fun h => hname (h ▸ List.mem_reverse.mp ha)
      simpa using this
    rw [List.takeWhile_append_of_pos hall]
    simp
  unfold Base
  rw [if_neg hpath]
  simp only [hrev, hdrop, htake, List.reverse_reverse, if_neg hne]

theorem TrimSuffix_append (stem suffix : List Char) :
    TrimSuffix (String.mk (stem ++ suffix)) (String.mk suffix) = String.mk stem := by
  have h : HasSuffix (String.mk (stem ++ suffix)) (String.mk suffix) = true := by
    simp [HasSuffix]
  simp [TrimSuffix, h]

theorem natDigits_no_slash (n : Nat) : '/' ∉ natDigits n := by
  intro h
  have hall : (natDigits n).all Char.isDigit = true := natDigitsAux_all _ _ _ (by simp)
  have := List.all_eq_true.mp hall _ h
  exact absurd this (by decide)

/-- The identifier `HandleRun` reports for a temporary file it created is the
file's base name without `.ndjson`, which is not empty. -/
theorem HandleRun_jobID_CreateTemp (tempDir jobUUID : String) (random : Nat)
    (huuid : '/' ∉ jobUUID.data) :
    HandleRun_jobID (CreateTemp_name tempDir jobUUID random) =
        "job-" ++ jobUUID ++ "-" ++ formatInt (random : Int) ∧
      HandleRun_jobID (CreateTemp_name tempDir jobUUID random) ≠ "" := by
  have hname : '/' ∉ "job-".data ++ jobUUID.data ++ "-".data ++ natDigits random
      ++ ".ndjson".data := by
    have hd := natDigits_no_slash random
    simp only [List.mem_append, not_or]
    refine ⟨⟨⟨⟨by decide, huuid⟩, by decide⟩, hd⟩, by decide⟩
  have hne : "job-".data ++ jobUUID.data ++ "-".data ++ natDigits random
      ++ ".ndjson".data ≠ [] := by
    simp
  have hfmt : (formatInt (random : Int)).data = natDigits random := rfl
  have key : ∀ dir : List Char, dir.getLast? = some '/' →
      HandleRun_jobID (String.mk (dir ++ ("job-".data ++ jobUUID.data ++ "-".data
        ++ natDigits random ++ ".ndjson".data))) =
        "job-" ++ jobUUID ++ "-" ++ formatInt (random : Int) := by
    intro dir hdir
    unfold HandleRun_jobID
    rw [Base_dir_name dir _ hdir hname hne]
    have := TrimSuffix_append ("job-".data ++ jobUUID.data ++ "-".data ++ natDigits random)
      ".ndjson".data
    rw [show String.mk ".ndjson".data = ".ndjson" from rfl] at this
    rw [this]
    apply String.ext
    simp [String.data_append, hfmt]
  have hval : HandleRun_jobID (CreateTemp_name tempDir jobUUID random) =
      "job-" ++ jobUUID ++ "-" ++ formatInt (random : Int) := by
    by_cases hj : tempDir ≠ "" ∧ tempDir.data.getLast? = some '/'
    · have h1 : CreateTemp_name tempDir jobUUID random =
          String.mk (tempDir.data ++ ("job-".data ++ jobUUID.data ++ "-".data
            ++ natDigits random ++ ".ndjson".data)) := by
        apply String.ext
        simp [CreateTemp_name, joinPath, hj, String.data_append, hfmt]
      rw [h1]
      exact key _ hj.2
    · have h1 : CreateTemp_name tempDir jobUUID random =
          String.mk ((tempDir.data ++ ['/']) ++ ("job-".data ++ jobUUID.data ++ "-".data
            ++ natDigits random ++ ".ndjson".data)) := by
        apply String.ext
        simp only [CreateTemp_name, joinPath, if_neg hj, String.data_append, hfmt]
        simp
      rw [h1]
      exact key _ (by simp)
  refine ⟨hval, ?_⟩
  rw [hval]
  intro h
  have h1 : ("job-" ++ jobUUID ++ "-" ++ formatInt (random : Int)).data = ("" : String).data := by
    rw [h]
  simp [String.data_append] at h1

/-- C8. Whenever the first line of the feed is scanned and parses,
`readConfiguration` succeeds and the configuration it returns is the parsed
one with `PrimaryKey` replaced by the base name of the file path without a
final `.ndjson`, whatever the header said; this is the string `HandleRun`
reports as job identifier for that path, and for a temporary file created by
`HandleRun` it is `job-<uuid>-<random>`, which is not empty. -/
theorem C8_primary_key_from_file_name (unmarshal : List Nat → Except String Configuration)
    (f : File) (line : List Nat) (parsed : Configuration)
    (hscan : scanFirstLine f.data = ScanResult.token line)
    (hparse : unmarshal line = Except.ok parsed) :
    (∃ conf f1, readConfiguration unmarshal f = Except.ok (conf, f1) ∧
      conf = { parsed with PrimaryKey := TrimSuffix (Base f.name) ".ndjson" } ∧
      conf.PrimaryKey = HandleRun_jobID f.name) ∧
    (∀ (tempDir jobUUID : String) (random : Nat), '/' ∉ jobUUID.data →
      f.name = CreateTemp_name tempDir jobUUID random →
        HandleRun_jobID f.name = "job-" ++ jobUUID ++ "-" ++ formatInt (random : Int) ∧
        HandleRun_jobID f.name ≠ "") := by
  constructor
  · refine ⟨{ parsed with PrimaryKey := TrimSuffix (Base f.name) ".ndjson" },
      { f with pos := line.length + 1 }, ?_, rfl, rfl⟩
    simp only [readConfiguration, hscan, hparse]
  · intro tempDir jobUUID random huuid hname
    rw [hname]
    exact HandleRun_jobID_CreateTemp tempDir jobUUID random huuid

/-- C8 on a header that carries `primarykey` = `from-header`, in the file
`/tmp/job-1.ndjson`. -/
theorem C8_primary_key_from_file_name_witness :
    (∃ conf f1,
      readConfiguration
          (fun _ => Except.ok { PrimaryKey := "from-header", Protocol := "http",
                                Host := "localhost", Path := "/upload", Port := "8080",
                                Metadata := [] })
          { name := "/tmp/job-1.ndjson", data := [123, 125, 10], pos := 0 } =
        Except.ok (conf, f1) ∧
      conf = { PrimaryKey := TrimSuffix (Base "/tmp/job-1.ndjson") ".ndjson", Protocol := "http",
               Host := "localhost", Path := "/upload", Port := "8080", Metadata := [] } ∧
      conf.PrimaryKey = HandleRun_jobID "/tmp/job-1.ndjson") :=
  (C8_primary_key_from_file_name
    (fun _ => Except.ok { PrimaryKey := "from-header", Protocol := "http",
                          Host := "localhost", Path := "/upload", Port := "8080",
                          Metadata := [] })
    { name := "/tmp/job-1.ndjson", data := [123, 125, 10], pos := 0 } [123, 125]
    { PrimaryKey := "from-header", Protocol := "http", Host := "localhost", Path := "/upload",
      Port := "8080", Metadata := [] }
    (by decide) rfl).1

/-! ### `UpdateStats` on an arbitrary keyspace -/

theorem Store.lookup_eq_some (db : Store) (now : Nat) (key : String) (e : Entry) :
    db.lookup now key = some e ↔ db key = some e ∧ e.liveAt now = true := by
  unfold Store.lookup
  cases h : db key with
  | none => simp [Option.filter]
  | some e1 =>
    by_cases hl : e1.liveAt now = true
    · simp only [Option.filter, hl, if_true, Option.some.injEq]
      constructor
      · intro h1; subst h1; exact ⟨rfl, hl⟩
      · intro h1; exact h1.1
    · simp only [Option.filter, hl, Option.some.injEq]
      constructor
      · intro h1; simp at h1
      · intro h1
        obtain ⟨h2, h3⟩ := h1
        subst h2
        exact absurd h3 hl

/-- Whatever holds of the keyspace after a successful `HINCRBY` and is kept by
`HSET` still holds before the final `EXPIRE` of a successful `UpdateStats`. -/
theorem UpdateStats_invariant (P Q : Store → Prop) (tl : TimeLayout) (db : Store) (now : Nat)
    (pk : String) (t : Time)
    (hincr : ∀ v db1, redisHIncrBy db now (statsKey pk) "count" 1 = Except.ok (v, db1) → P db1)
    (hset : ∀ d field v, P d → P (hsetIgnoringResult d now (statsKey pk) field v))
    (hexp : ∀ d, P d → Q (redisExpire d now (statsKey pk) DefaultTTL))
    (hok : (UpdateStats tl db now pk t).1 = none) :
    Q (UpdateStats tl db now pk t).2 := by
  unfold UpdateStats at hok ⊢
  cases h1 : redisHIncrBy db now (statsKey pk) "count" 1 with
  | error err => simp [h1] at hok
  | ok r =>
    obtain ⟨v, db1⟩ := r
    have hP1 : P db1 := hincr v db1 h1
    cases h2 : redisHMGet db1 now (statsKey pk) ["min_time", "max_time"] with
    | error err => simp [h1, h2] at hok
    | ok res =>
      simp only [h1, h2]
      apply hexp
      have hP2 : P (match res.getD 0 none with
          | none => hsetIgnoringResult db1 now (statsKey pk) "min_time" (tl.format t)
          | some cur =>
            if t < tl.parseOrZero cur then
              hsetIgnoringResult db1 now (statsKey pk) "min_time" (tl.format t)
            else db1) := by
        split
        · exact hset _ _ _ hP1
        · split
          · exact hset _ _ _ hP1
          · exact hP1
      split
      · exact hset _ _ _ hP2
      · split
        · exact hset _ _ _ hP2
        · exact hP2

theorem redisHIncrBy_ok (db : Store) (now : Nat) (key field : String) (incr v : Int)
    (db1 : Store) (h : redisHIncrBy db now key field incr = Except.ok (v, db1)) :
    (∀ k, k ≠ key → db1 k = db k) ∧
      ∃ fields exp, db1.lookup now key =
        some { value := RedisValue.hash fields, expireAt := exp } := by
  unfold redisHIncrBy at h
  cases hl : db.lookup now key with
  | none =>
    simp only [hl, Except.ok.injEq, Prod.mk.injEq] at h
    obtain ⟨_, h2⟩ := h
    subst h2
    exact ⟨fun k hk => Store.put_other _ _ _ _ hk, _, _, lookup_put_live _ _ _ _ rfl⟩
  | some e =>
    have hlive : e.liveAt now = true := ((Store.lookup_eq_some _ _ _ _).mp hl).2
    obtain ⟨val, exp⟩ := e
    cases val with
    | str doc => simp [hl] at h
    | hash fields =>
      simp only [hl] at h
      cases hf : List.lookup field fields with
      | none =>
        simp only [hf, Except.ok.injEq, Prod.mk.injEq] at h
        obtain ⟨_, h2⟩ := h
        subst h2
        exact ⟨fun k hk => Store.put_other _ _ _ _ hk, _, _, lookup_put_live _ _ _ _ hlive⟩
      | some old =>
        simp only [hf] at h
        cases hp : string2ll old with
        | none => simp [hp] at h
        | some w =>
          simp only [hp] at h
          split at h
          · simp only [Except.ok.injEq, Prod.mk.injEq] at h
            obtain ⟨_, h2⟩ := h
            subst h2
            exact ⟨fun k hk => Store.put_other _ _ _ _ hk, _, _, lookup_put_live _ _ _ _ hlive⟩
          · simp at h

theorem hsetIgnoringResult_other (db : Store) (now : Nat) (key field v k : String)
    (hk : k ≠ key) : hsetIgnoringResult db now key field v k = db k := by
  unfold hsetIgnoringResult redisHSet
  cases hl : db.lookup now key with
  | none => simp only [Store.put_other _ _ _ _ hk]
  | some e =>
    obtain ⟨val, exp⟩ := e
    cases val with
    | str doc => rfl
    | hash fields => simp only [Store.put_other _ _ _ _ hk]

theorem redisExpire_other (db : Store) (now : Nat) (key : String) (ttl : Nat) (k : String)
    (hk : k ≠ key) : redisExpire db now key ttl k = db k := by
  unfold redisExpire
  cases hl : db.lookup now key with
  | none => rfl
  | some e => simp only [Store.put_other _ _ _ _ hk]

/-- A successful `UpdateStats` changes no key but the statistics key of its job. -/
theorem UpdateStats_other (tl : TimeLayout) (db : Store) (now : Nat) (pk : String) (t : Time)
    (k : String) (hk : k ≠ statsKey pk) (hok : (UpdateStats tl db now pk t).1 = none) :
    (UpdateStats tl db now pk t).2 k = db k :=
  UpdateStats_invariant (fun d => d k = db k) (fun d => d k = db k) tl db now pk t
    (fun v db1 h => (redisHIncrBy_ok db now _ _ _ v db1 h).1 k hk)
    (fun d field v hd => (hsetIgnoringResult_other d now _ field v k hk).trans hd)
    (fun d hd => (redisExpire_other d now _ _ k hk).trans hd) hok

/-- A successful `UpdateStats` leaves the statistics key of its job holding a
hash that expires `DefaultTTL` after the call. -/
theorem UpdateStats_deadline (tl : TimeLayout) (db : Store) (now : Nat) (pk : String) (t : Time)
    (hok : (UpdateStats tl db now pk t).1 = none) :
    ∃ fields, (UpdateStats tl db now pk t).2 (statsKey pk) =
      some { value := RedisValue.hash fields, expireAt := some (now + DefaultTTL) } := by
  refine UpdateStats_invariant
    (fun d => ∃ fields exp, d.lookup now (statsKey pk) =
      some { value := RedisValue.hash fields, expireAt := exp })
    (fun d => ∃ fields, d (statsKey pk) =
      some { value := RedisValue.hash fields, expireAt := some (now + DefaultTTL) })
    tl db now pk t ?_ ?_ ?_ hok
  · intro v db1 h
    exact (redisHIncrBy_ok db now _ _ _ v db1 h).2
  · rintro d field v ⟨fields, exp, hd⟩
    have hlive := ((Store.lookup_eq_some _ _ _ _).mp hd).2
    rw [hsetIgnoringResult_hash d now _ field v fields exp hd]
    exact ⟨_, _, lookup_put_live _ _ _ _ hlive⟩
  · rintro d ⟨fields, exp, hd⟩
    rw [redisExpire_live d now _ _ _ hd]
    exact ⟨fields, Store.put_same _ _ _⟩

/-- When the statistics key of the job holds a string, `UpdateStats` fails. -/
theorem UpdateStats_wrongType (tl : TimeLayout) (db : Store) (now : Nat) (pk : String)
    (t : Time) (doc : Json) (exp : Option Nat)
    (h : db.lookup now (statsKey pk) = some { value := RedisValue.str doc, expireAt := exp }) :
    (UpdateStats tl db now pk t).1 = some errWrongType := by
  simp [UpdateStats, redisHIncrBy, h]

/-! ### Claims C7 and C9: `WriteToCache` and `ReadFromCache` -/

theorem validUTF8_coerce (fuel : Nat) :
    ∀ l : List Char, validUTF8 fuel l = true → coerceUTF8 fuel l = l := by
  induction fuel with
  | zero =>
    intro l h
    cases l with
    | nil => rfl
    | cons c rest => simp [validUTF8] at h
  | succ fuel ih =>
    intro l h
    cases l with
    | nil => rfl
    | cons c rest =>
      by_cases hw : runeWidth ((c :: rest.take 3).map Char.toNat) = 0
      · simp only [validUTF8, if_pos hw] at h
        exact absurd h (by decide)
      · simp only [validUTF8, if_neg hw] at h
        simp only [coerceUTF8, if_neg hw]
        rw [ih _ h, List.take_append_drop]

/-- Valid UTF-8 is left as it is by the coercion of `encoding/json`. -/
theorem toValidUTF8_of_valid (s : String) (h : ValidString s = true) : toValidUTF8 s = s := by
  unfold toValidUTF8
  rw [validUTF8_coerce _ _ h]

theorem bitLength_le (fuel : Nat) :
    ∀ (n k : Nat), n < 2 ^ k → bitLength fuel n ≤ k := by
  induction fuel with
  | zero => intro n k _; exact Nat.zero_le k
  | succ fuel ih =>
    intro n k h
    unfold bitLength
    split
    · exact Nat.zero_le k
    · rename_i hn
      cases k with
      | zero => simp at h; exact absurd h hn
      | succ k =>
        have h2 : n / 2 < 2 ^ k := by
          rw [Nat.pow_succ] at h
          omega
        exact Nat.succ_le_succ (ih (n / 2) k h2)

/-- Every integer below 2^53 in magnitude is the value of a `float64`. -/
theorem nearestFloat64_small (v : Int) (h : v.natAbs < 2 ^ 53) : nearestFloat64 v = some v := by
  cases v with
  | ofNat k =>
    have hk : k < 2 ^ 53 := by simpa using h
    simp [nearestFloat64, nearestFloat64Nat, bitLength_le k k 53 hk]
  | negSucc k =>
    have hk : k + 1 < 2 ^ 53 := by simpa using h
    simp [nearestFloat64, nearestFloat64Nat, bitLength_le (k + 1) (k + 1) 53 hk]
    rw [Int.negSucc_eq]
    omega

theorem unmarshalMember_primaryKey (st : ResponseStatus) (v : JsonScalar) :
    unmarshalMember st "primary-key" v =
      (unmarshalString st.PrimaryKey v).map (fun s => { st with PrimaryKey := s }) := rfl

theorem unmarshalMember_rowKey (st : ResponseStatus) (v : JsonScalar) :
    unmarshalMember st "row-key" v =
      (unmarshalInt st.RowKey v).map (fun i => { st with RowKey := i }) := rfl

theorem unmarshalMember_status (st : ResponseStatus) (v : JsonScalar) :
    unmarshalMember st "status" v =
      (unmarshalString st.Status v).map (fun s => { st with Status := s }) := rfl

theorem unmarshalMember_response (st : ResponseStatus) (v : JsonScalar) :
    unmarshalMember st "response" v =
      (unmarshalAny v).map (fun r => { st with Response := r }) := rfl

theorem unmarshalMember_error (st : ResponseStatus) (v : JsonScalar) :
    unmarshalMember st "error" v =
      (unmarshalString st.Error v).map (fun s => { st with Error := s }) := rfl

/-- Decoding the stored document of an outcome whose strings are valid UTF-8
and whose response is nil, a bool, a `float64` or a string gives the outcome
back. -/
theorem Unmarshal_Marshal (o : ResponseStatus)
    (hpk : ValidString o.PrimaryKey = true) (hst : ValidString o.Status = true)
    (herr : ValidString o.Error = true)
    (hresp : o.Response = GoAny.nil ∨ (∃ b, o.Response = GoAny.bool b) ∨
      (∃ v, o.Response = GoAny.float64 v ∧ nearestFloat64 v = some v) ∨
      ∃ s, o.Response = GoAny.string s ∧ ValidString s = true)
    (hrow : minInt64 ≤ o.RowKey ∧ o.RowKey ≤ maxInt64) :
    ∃ data, Marshal o = Except.ok data ∧ Unmarshal data = Except.ok o := by
  obtain ⟨pk, rk, st, resp, err⟩ := o
  simp only at hpk hst herr hresp hrow
  have e1 := toValidUTF8_of_valid pk hpk
  have e2 := toValidUTF8_of_valid st hst
  have e3 := toValidUTF8_of_valid err herr
  rcases hresp with h | ⟨b, h⟩ | ⟨v, h, hv⟩ | ⟨s, h, hs⟩
  · subst h
    by_cases he : err = ""
    · subst he
      refine ⟨_, rfl, ?_⟩
      simp [Unmarshal, unmarshalMembers, unmarshalMember_primaryKey, unmarshalMember_rowKey,
        unmarshalMember_status, unmarshalString, unmarshalInt, zeroResponseStatus, hrow, e1, e2,
        Except.map]
    · refine ⟨_, rfl, ?_⟩
      simp [Unmarshal, unmarshalMembers, unmarshalMember_primaryKey, unmarshalMember_rowKey,
        unmarshalMember_status, unmarshalMember_error, unmarshalString, unmarshalInt,
        zeroResponseStatus, hrow, he, e1, e2, e3, Except.map]
  · subst h
    by_cases he : err = ""
    · subst he
      refine ⟨_, rfl, ?_⟩
      simp [Unmarshal, unmarshalMembers, unmarshalMember_primaryKey, unmarshalMember_rowKey,
        unmarshalMember_status, unmarshalMember_response, unmarshalString, unmarshalInt,
        unmarshalAny, zeroResponseStatus, hrow, e1, e2, Except.map]
    · refine ⟨_, rfl, ?_⟩
      simp [Unmarshal, unmarshalMembers, unmarshalMember_primaryKey, unmarshalMember_rowKey,
        unmarshalMember_status, unmarshalMember_response, unmarshalMember_error,
        unmarshalString, unmarshalInt, unmarshalAny, zeroResponseStatus, hrow, he, e1, e2, e3,
        Except.map]
  · subst h
    by_cases he : err = ""
    · subst he
      refine ⟨_, rfl, ?_⟩
      simp [Unmarshal, unmarshalMembers, unmarshalMember_primaryKey, unmarshalMember_rowKey,
        unmarshalMember_status, unmarshalMember_response, unmarshalString, unmarshalInt,
        unmarshalAny, zeroResponseStatus, hrow, hv, e1, e2, Except.map]
    · refine ⟨_, rfl, ?_⟩
      simp [Unmarshal, unmarshalMembers, unmarshalMember_primaryKey, unmarshalMember_rowKey,
        unmarshalMember_status, unmarshalMember_response, unmarshalMember_error,
        unmarshalString, unmarshalInt, unmarshalAny, zeroResponseStatus, hrow, he, hv, e1, e2,
        e3, Except.map]
  · subst h
    have e4 := toValidUTF8_of_valid s hs
    by_cases he : err = ""
    · subst he
      refine ⟨_, rfl, ?_⟩
      simp [Unmarshal, unmarshalMembers, unmarshalMember_primaryKey, unmarshalMember_rowKey,
        unmarshalMember_status, unmarshalMember_response, unmarshalString, unmarshalInt,
        unmarshalAny, zeroResponseStatus, hrow, e1, e2, e4, Except.map]
    · refine ⟨_, rfl, ?_⟩
      simp [Unmarshal, unmarshalMembers, unmarshalMember_primaryKey, unmarshalMember_rowKey,
        unmarshalMember_status, unmarshalMember_response, unmarshalMember_error,
        unmarshalString, unmarshalInt, unmarshalAny, zeroResponseStatus, hrow, he, e1, e2, e3,
        e4, Except.map]

theorem DefaultTTL_pos : 0 < DefaultTTL := by decide

/-- A successful `WriteToCache` leaves the document of the outcome at the
entry key and a hash at the statistics key, each expiring `DefaultTTL` after
the write. -/
theorem WriteToCache_ok (tl : TimeLayout) (db : Store) (now : Nat) (wall : Time)
    (o : ResponseStatus) (hok : (WriteToCache tl db now wall o).1 = none) :
    (∃ data, Marshal o = Except.ok data ∧
      (WriteToCache tl db now wall o).2 (entryKey o.PrimaryKey o.RowKey) =
        some { value := RedisValue.str data, expireAt := some (now + DefaultTTL) }) ∧
    ∃ fields, (WriteToCache tl db now wall o).2 (statsKey o.PrimaryKey) =
      some { value := RedisValue.hash fields, expireAt := some (now + DefaultTTL) } := by
  unfold WriteToCache at hok ⊢
  cases hm : Marshal o with
  | error err => simp [hm] at hok
  | ok data =>
    simp only [hm] at hok ⊢
    have hput : (redisSet db now (entryKey o.PrimaryKey o.RowKey) data DefaultTTL)
        (entryKey o.PrimaryKey o.RowKey) =
        some { value := RedisValue.str data, expireAt := some (now + DefaultTTL) } :=
      Store.put_same _ _ _
    have hne : entryKey o.PrimaryKey o.RowKey ≠ statsKey o.PrimaryKey := by
      intro heq
      have hl := Store.lookup_of_live _ now _ _ hput
        (liveAt_deadline _ _ _ (Nat.lt_add_of_pos_right DefaultTTL_pos))
      rw [heq] at hl hok
      have := UpdateStats_wrongType tl _ now o.PrimaryKey wall data _ hl
      rw [this] at hok
      exact absurd hok (by simp)
    refine ⟨⟨data, rfl, ?_⟩, UpdateStats_deadline tl _ now _ wall hok⟩
    rw [UpdateStats_other tl _ now _ wall _ hne hok]
    exact hput

/-- C7, as amended. For every outcome whose response does not hold an `int` and
whose strings (`PrimaryKey`, `Status`, `Error` and a string response) are valid
UTF-8, if `WriteToCache` succeeds then `ReadFromCache` for the same job and
row, called before the entry expires and before any other write, returns the
outcome written, field for field.  The values are those of the Go types: the
row identifier is an `int` and a `float64` response holds a `float64` value. -/
theorem C7_write_then_read_roundtrip (tl : TimeLayout) (db : Store) (now g : Nat) (wall : Time)
    (o : ResponseStatus)
    (hint : ∀ i, o.Response ≠ GoAny.int i)
    (hutf8 : ValidString o.PrimaryKey = true ∧ ValidString o.Status = true ∧
      ValidString o.Error = true ∧ ∀ s, o.Response = GoAny.string s → ValidString s = true)
    (hrow : minInt64 ≤ o.RowKey ∧ o.RowKey ≤ maxInt64)
    (hfloat : ∀ v, o.Response = GoAny.float64 v → nearestFloat64 v = some v)
    (hok : (WriteToCache tl db now wall o).1 = none)
    (hlive : g < now + DefaultTTL) :
    ReadFromCache (WriteToCache tl db now wall o).2 g o.PrimaryKey o.RowKey = Except.ok o := by
  obtain ⟨⟨data, hm, hentry⟩, _⟩ := WriteToCache_ok tl db now wall o hok
  have hresp : o.Response = GoAny.nil ∨ (∃ b, o.Response = GoAny.bool b) ∨
      (∃ v, o.Response = GoAny.float64 v ∧ nearestFloat64 v = some v) ∨
      ∃ s, o.Response = GoAny.string s ∧ ValidString s = true := by
    cases hr : o.Response with
    | nil => exact Or.inl rfl
    | bool b => exact Or.inr (Or.inl ⟨b, rfl⟩)
    | int i => exact absurd hr (hint i)
    | float64 v => exact Or.inr (Or.inr (Or.inl ⟨v, rfl, hfloat v hr⟩))
    | string s => exact Or.inr (Or.inr (Or.inr ⟨s, rfl, hutf8.2.2.2 s hr⟩))
    | func => simp [Marshal, marshalAny, hr] at hm
  obtain ⟨data1, hm1, hu⟩ :=
    Unmarshal_Marshal o hutf8.1 hutf8.2.1 hutf8.2.2.1 hresp hrow
  rw [hm] at hm1
  have hd : data = data1 := by injection hm1
  subst hd
  have hl := Store.lookup_of_live _ g _ _ hentry (liveAt_deadline _ _ _ hlive)
  simp only [ReadFromCache, redisGet, hl, hu]

/-- C7 for an outcome as `Consumer` sends it, written to an empty cache. -/
theorem C7_write_then_read_roundtrip_witness :
    ReadFromCache
        (WriteToCache rfc3339NanoUTC emptyStore 0 63835596800000000000
          { PrimaryKey := "job-1", RowKey := 0, Status := "success",
            Response := GoAny.string "ok", Error := "" }).2
        5 "job-1" 0 =
      Except.ok { PrimaryKey := "job-1", RowKey := 0, Status := "success",
                  Response := GoAny.string "ok", Error := "" } :=
  C7_write_then_read_roundtrip rfc3339NanoUTC emptyStore 0 5 63835596800000000000
    { PrimaryKey := "job-1", RowKey := 0, Status := "success",
      Response := GoAny.string "ok", Error := "" }
    (fun _ h => GoAny.noConfusion h)
    ⟨by decide, by decide, by decide, fun s h => by
      have hs : s = "ok" := by injection h with h; exact h.symm
      rw [hs]; decide⟩
    (by decide) (fun _ h => GoAny.noConfusion h) (by decide) (by decide)

/-- C7 as stated fails. An outcome whose response holds the `int` 5 is written
successfully and read back with the `float64` 5 in its place; an outcome whose
status is the single byte `0xff`, which is not valid UTF-8, is written
successfully and read back with the three bytes of U+FFFD as its status.
Neither is the outcome written. -/
theorem C7_counterexample_int_or_invalid_utf8 :
    ((WriteToCache rfc3339NanoUTC emptyStore 0 63835596800000000000
        { PrimaryKey := "job-1", RowKey := 0, Status := "success",
          Response := GoAny.int 5, Error := "" }).1 = none ∧
      ReadFromCache
          (WriteToCache rfc3339NanoUTC emptyStore 0 63835596800000000000
            { PrimaryKey := "job-1", RowKey := 0, Status := "success",
              Response := GoAny.int 5, Error := "" }).2
          5 "job-1" 0 =
        Except.ok { PrimaryKey := "job-1", RowKey := 0, Status := "success",
                    Response := GoAny.float64 5, Error := "" } ∧
      ReadFromCache
          (WriteToCache rfc3339NanoUTC emptyStore 0 63835596800000000000
            { PrimaryKey := "job-1", RowKey := 0, Status := "success",
              Response := GoAny.int 5, Error := "" }).2
          5 "job-1" 0 ≠
        Except.ok { PrimaryKey := "job-1", RowKey := 0, Status := "success",
                    Response := GoAny.int 5, Error := "" }) ∧
    ((WriteToCache rfc3339NanoUTC emptyStore 0 63835596800000000000
        { PrimaryKey := "job-1", RowKey := 0, Status := "\xff",
          Response := GoAny.string "ok", Error := "" }).1 = none ∧
      ReadFromCache
          (WriteToCache rfc3339NanoUTC emptyStore 0 63835596800000000000
            { PrimaryKey := "job-1", RowKey := 0, Status := "\xff",
              Response := GoAny.string "ok", Error := "" }).2
          5 "job-1" 0 =
        Except.ok { PrimaryKey := "job-1", RowKey := 0, Status := "\xef\xbf\xbd",
                    Response := GoAny.string "ok", Error := "" } ∧
      ReadFromCache
          (WriteToCache rfc3339NanoUTC emptyStore 0 63835596800000000000
            { PrimaryKey := "job-1", RowKey := 0, Status := "\xff",
              Response := GoAny.string "ok", Error := "" }).2
          5 "job-1" 0 ≠
        Except.ok { PrimaryKey := "job-1", RowKey := 0, Status := "\xff",
                    Response := GoAny.string "ok", Error := "" }) := by
  have h1 : ReadFromCache
        (WriteToCache rfc3339NanoUTC emptyStore 0 63835596800000000000
          { PrimaryKey := "job-1", RowKey := 0, Status := "success",
            Response := GoAny.int 5, Error := "" }).2
        5 "job-1" 0 =
      Except.ok { PrimaryKey := "job-1", RowKey := 0, Status := "success",
                  Response := GoAny.float64 5, Error := "" } := rfl
  have h2 : ReadFromCache
        (WriteToCache rfc3339NanoUTC emptyStore 0 63835596800000000000
          { PrimaryKey := "job-1", RowKey := 0, Status := "\xff",
            Response := GoAny.string "ok", Error := "" }).2
        5 "job-1" 0 =
      Except.ok { PrimaryKey := "job-1", RowKey := 0, Status := "\xef\xbf\xbd",
                  Response := GoAny.string "ok", Error := "" } := rfl
  refine ⟨⟨by decide, h1, ?_⟩, ⟨by decide, h2, ?_⟩⟩
  · rw [h1]
    intro hc
    injection hc with hc
    injection hc with _ _ _ h4 _
    exact absurd h4 (by decide)
  · rw [h2]
    intro hc
    injection hc with hc
    injection hc with _ _ h3 _ _
    exact absurd h3 (by decide)

/-- C9. After a `WriteToCache` of an outcome in which every store command
succeeds, run at server time `now` on any keyspace (so whichever branches
`UpdateStats` takes), the cache entry at `<job>:<row>` and the statistics
record at `stats:<job>` both expire at `now + DefaultTTL`, and `DefaultTTL` is
one hour. -/
theorem C9_write_resets_both_expiries (tl : TimeLayout) (db : Store) (now : Nat) (wall : Time)
    (o : ResponseStatus) (hok : (WriteToCache tl db now wall o).1 = none) :
    (∃ e, (WriteToCache tl db now wall o).2 (o.PrimaryKey ++ ":" ++ formatInt o.RowKey) = some e ∧
      e.expireAt = some (now + DefaultTTL)) ∧
    (∃ e, (WriteToCache tl db now wall o).2 ("stats:" ++ o.PrimaryKey) = some e ∧
      e.expireAt = some (now + DefaultTTL)) ∧
    DefaultTTL = 60 * 60 * 1000000000 := by
  obtain ⟨⟨data, _, hentry⟩, ⟨fields, hstats⟩⟩ := WriteToCache_ok tl db now wall o hok
  exact ⟨⟨_, hentry, rfl⟩, ⟨_, hstats, rfl⟩, by decide⟩

/-- C9 for a second outcome of a job, written one second after the first. -/
theorem C9_write_resets_both_expiries_witness :
    (∃ e, (WriteToCache decimalLayout
        (WriteToCache decimalLayout emptyStore 0 1700000000000000000
          { PrimaryKey := "job-1", RowKey := 0, Status := "success",
            Response := GoAny.string "ok", Error := "" }).2
        1000000000 1700000001000000000
        { PrimaryKey := "job-1", RowKey := 1, Status := "failed",
          Response := GoAny.string "", Error := "unsupported protocol: ftp" }).2
        ("job-1" ++ ":" ++ formatInt 1) = some e ∧
      e.expireAt = some (1000000000 + DefaultTTL)) ∧
    (∃ e, (WriteToCache decimalLayout
        (WriteToCache decimalLayout emptyStore 0 1700000000000000000
          { PrimaryKey := "job-1", RowKey := 0, Status := "success",
            Response := GoAny.string "ok", Error := "" }).2
        1000000000 1700000001000000000
        { PrimaryKey := "job-1", RowKey := 1, Status := "failed",
          Response := GoAny.string "", Error := "unsupported protocol: ftp" }).2
        ("stats:" ++ "job-1") = some e ∧
      e.expireAt = some (1000000000 + DefaultTTL)) ∧
    DefaultTTL = 60 * 60 * 1000000000 :=
  C9_write_resets_both_expiries decimalLayout
    (WriteToCache decimalLayout emptyStore 0 1700000000000000000
      { PrimaryKey := "job-1", RowKey := 0, Status := "success",
        Response := GoAny.string "ok", Error := "" }).2
    1000000000 1700000001000000000
    { PrimaryKey := "job-1", RowKey := 1, Status := "failed",
      Response := GoAny.string "", Error := "unsupported protocol: ftp" }
    (by decide)

/-! ### Claim C11: entry keys and statistics keys -/

/-- An entry key equals a statistics key only for a job named `stats` or named
with the prefix `stats:`. -/
theorem entryKey_ne_statsKey (j j2 : String) (r : Int) (h1 : j ≠ "stats")
    (h2 : "stats:".data.isPrefixOf j.data = false) : entryKey j r ≠ statsKey j2 := by
  intro heq
  have hd : j.data ++ (':' :: (formatInt r).data) =
      's' :: 't' :: 'a' :: 't' :: 's' :: ':' :: j2.data := by
    have := congrArg String.data heq
    simpa [entryKey, statsKey, String.data_append] using this
  have hj : j = String.mk j.data := rfl
  rcases hc : j.data with _ | ⟨c1, _ | ⟨c2, _ | ⟨c3, _ | ⟨c4, _ | ⟨c5, _ | ⟨c6, l⟩⟩⟩⟩⟩⟩
  · rw [hc] at hd; simp at hd
  · rw [hc] at hd; simp at hd
  · rw [hc] at hd; simp at hd
  · rw [hc] at hd; simp at hd
  · rw [hc] at hd; simp at hd
  · rw [hc] at hd
    simp only [List.cons_append, List.nil_append, List.cons.injEq] at hd
    obtain ⟨e1, e2, e3, e4, e5, _⟩ := hd
    apply h1
    rw [hj, hc, e1, e2, e3, e4, e5]
  · rw [hc] at hd h2
    simp only [List.cons_append, List.cons.injEq] at hd
    obtain ⟨e1, e2, e3, e4, e5, e6, _⟩ := hd
    subst e1 e2 e3 e4 e5 e6
    simp [List.isPrefixOf] at h2

/-- Every job named `stats` or named with the prefix `stats:` has, for each of
its rows, an entry key that is the statistics key of some job. -/
theorem entryKey_eq_statsKey_of_reserved (x : String) (r : Int) :
    entryKey "stats" r = statsKey (formatInt r) ∧
      entryKey ("stats:" ++ x) r = statsKey (x ++ ":" ++ formatInt r) := by
  constructor
  · apply String.ext
    simp [entryKey, statsKey, String.data_append]
  · apply String.ext
    simp [entryKey, statsKey, String.data_append]

theorem statsKey_injective (a b : String) (h : statsKey a = statsKey b) : a = b := by
  have hd := congrArg String.data h
  simp only [statsKey, String.data_append] at hd
  exact String.ext (List.append_cancel_left hd)

/-- What holds of the keyspace before `UpdateStats` and is kept by each of its
commands holds of the keyspace it leaves, whether it succeeds or not. -/
theorem UpdateStats_invariant_always (P : Store → Prop) (tl : TimeLayout) (db : Store)
    (now : Nat) (pk : String) (t : Time)
    (h0 : P db)
    (hincr : ∀ v db1, redisHIncrBy db now (statsKey pk) "count" 1 = Except.ok (v, db1) → P db1)
    (hset : ∀ d field v, P d → P (hsetIgnoringResult d now (statsKey pk) field v))
    (hexp : ∀ d, P d → P (redisExpire d now (statsKey pk) DefaultTTL)) :
    P (UpdateStats tl db now pk t).2 := by
  unfold UpdateStats
  cases h1 : redisHIncrBy db now (statsKey pk) "count" 1 with
  | error err => simp only [h1]; exact h0
  | ok r =>
    obtain ⟨v, db1⟩ := r
    have hP1 : P db1 := hincr v db1 h1
    cases h2 : redisHMGet db1 now (statsKey pk) ["min_time", "max_time"] with
    | error err => simp only [h1, h2]; exact hP1
    | ok res =>
      simp only [h1, h2]
      apply hexp
      have hP2 : P (match res.getD 0 none with
          | none => hsetIgnoringResult db1 now (statsKey pk) "min_time" (tl.format t)
          | some cur =>
            if t < tl.parseOrZero cur then
              hsetIgnoringResult db1 now (statsKey pk) "min_time" (tl.format t)
            else db1) := by
        split
        · exact hset _ _ _ hP1
        · split
          · exact hset _ _ _ hP1
          · exact hP1
      split
      · exact hset _ _ _ hP2
      · split
        · exact hset _ _ _ hP2
        · exact hP2

/-- Whether it succeeds or not, `UpdateStats` changes no key but the
statistics key of its job. -/
theorem UpdateStats_other_always (tl : TimeLayout) (db : Store) (now : Nat) (pk : String)
    (t : Time) (k : String) (hk : k ≠ statsKey pk) :
    (UpdateStats tl db now pk t).2 k = db k :=
  UpdateStats_invariant_always (fun d => d k = db k) tl db now pk t rfl
    (fun v db1 h => (redisHIncrBy_ok db now _ _ _ v db1 h).1 k hk)
    (fun d field v hd => (hsetIgnoringResult_other d now _ field v k hk).trans hd)
    (fun d hd => (redisExpire_other d now _ _ k hk).trans hd)

/-- The identifiers `HandleRun` assigns, which begin with `job-`, are neither
`stats` nor prefixed by `stats:`. -/
theorem jobID_not_reserved (rest : String) :
    "job-" ++ rest ≠ "stats" ∧ "stats:".data.isPrefixOf ("job-" ++ rest).data = false := by
  constructor
  · intro h
    have hd := congrArg String.data h
    simp [String.data_append] at hd
  · simp [String.data_append, List.isPrefixOf]

/-- C11, as amended. For every outcome of a job whose identifier is not `stats`
and does not begin with `stats:`, and every job identifier `j2`, the entry key
`<job>:<row>` differs from the statistics key `stats:<j2>`; so the `SET` of
the entry leaves the statistics record of every job as it was, and the whole
`WriteToCache`, successful or not, leaves the statistics record of every
other job as it was. -/
theorem C11_entry_key_differs_from_stats_keys (tl : TimeLayout) (db : Store) (now : Nat)
    (wall : Time) (o : ResponseStatus) (j2 : String)
    (h1 : o.PrimaryKey ≠ "stats")
    (h2 : "stats:".data.isPrefixOf o.PrimaryKey.data = false) :
    o.PrimaryKey ++ ":" ++ formatInt o.RowKey ≠ "stats:" ++ j2 ∧
    (∀ data : Json,
      (redisSet db now (entryKey o.PrimaryKey o.RowKey) data DefaultTTL) (statsKey j2) =
        db (statsKey j2)) ∧
    (j2 ≠ o.PrimaryKey →
      (WriteToCache tl db now wall o).2 (statsKey j2) = db (statsKey j2)) := by
  have hne : entryKey o.PrimaryKey o.RowKey ≠ statsKey j2 :=
    entryKey_ne_statsKey o.PrimaryKey j2 o.RowKey h1 h2
  have hset : ∀ data : Json,
      (redisSet db now (entryKey o.PrimaryKey o.RowKey) data DefaultTTL) (statsKey j2) =
        db (statsKey j2) :=
    fun data => Store.put_other _ _ _ _ (fun h => hne h.symm)
  refine ⟨hne, hset, ?_⟩
  intro hj
  have hk : statsKey j2 ≠ statsKey o.PrimaryKey := fun h => hj (statsKey_injective _ _ h)
  unfold WriteToCache
  cases hm : Marshal o with
  | error err => simp only [hm]
  | ok data =>
    simp only [hm]
    rw [UpdateStats_other_always tl _ now _ wall _ hk]
    exact hset data

/-- C11 for an outcome of the job `job-1`, written while the job `job-2` has
statistics. -/
theorem C11_entry_key_differs_from_stats_keys_witness :
    "job-1" ++ ":" ++ formatInt 0 ≠ "stats:" ++ "job-2" ∧
    (∀ data : Json,
      (redisSet
          (WriteToCache decimalLayout emptyStore 0 1700000000000000000
            { PrimaryKey := "job-2", RowKey := 7, Status := "success",
              Response := GoAny.string "ok", Error := "" }).2
          1 (entryKey "job-1" 0) data DefaultTTL) (statsKey "job-2") =
        (WriteToCache decimalLayout emptyStore 0 1700000000000000000
          { PrimaryKey := "job-2", RowKey := 7, Status := "success",
            Response := GoAny.string "ok", Error := "" }).2 (statsKey "job-2")) ∧
    ("job-2" ≠ "job-1" →
      (WriteToCache decimalLayout
          (WriteToCache decimalLayout emptyStore 0 1700000000000000000
            { PrimaryKey := "job-2", RowKey := 7, Status := "success",
              Response := GoAny.string "ok", Error := "" }).2
          1 1700000000000000001
          { PrimaryKey := "job-1", RowKey := 0, Status := "success",
            Response := GoAny.string "ok", Error := "" }).2 (statsKey "job-2") =
        (WriteToCache decimalLayout emptyStore 0 1700000000000000000
          { PrimaryKey := "job-2", RowKey := 7, Status := "success",
            Response := GoAny.string "ok", Error := "" }).2 (statsKey "job-2")) :=
  C11_entry_key_differs_from_stats_keys decimalLayout
    (WriteToCache decimalLayout emptyStore 0 1700000000000000000
      { PrimaryKey := "job-2", RowKey := 7, Status := "success",
        Response := GoAny.string "ok", Error := "" }).2
    1 1700000000000000001
    { PrimaryKey := "job-1", RowKey := 0, Status := "success",
      Response := GoAny.string "ok", Error := "" }
    "job-2" (by decide) (by decide)

/-- C11 as stated fails: the entry key of row 5 of the job `stats` is the
statistics key of the job `5`, and that of row 1 of the job `stats:a` is the
statistics key of the job `a:1`.  Once the job `5` has statistics, storing the
outcome of row 5 of the job `stats` succeeds and replaces them by the outcome's
document, after which `GetStats` for the job `5` fails. -/
theorem C11_counterexample_stats_job :
    "stats" ++ ":" ++ formatInt 5 = "stats:" ++ "5" ∧
    "stats:a" ++ ":" ++ formatInt 1 = "stats:" ++ "a:1" ∧
    GetStats decimalLayout
        (WriteToCache decimalLayout emptyStore 0 1700000000000000000
          { PrimaryKey := "5", RowKey := 0, Status := "success",
            Response := GoAny.string "ok", Error := "" }).2
        1 "5" =
      Except.ok { Count := 1, MinTime := 1700000000000000000,
                  MaxTime := 1700000000000000000 } ∧
    (WriteToCache decimalLayout
        (WriteToCache decimalLayout emptyStore 0 1700000000000000000
          { PrimaryKey := "5", RowKey := 0, Status := "success",
            Response := GoAny.string "ok", Error := "" }).2
        1 1700000000000000001
        { PrimaryKey := "stats", RowKey := 5, Status := "success",
          Response := GoAny.string "ok", Error := "" }).1 = none ∧
    GetStats decimalLayout
        (WriteToCache decimalLayout
          (WriteToCache decimalLayout emptyStore 0 1700000000000000000
            { PrimaryKey := "5", RowKey := 0, Status := "success",
              Response := GoAny.string "ok", Error := "" }).2
          1 1700000000000000001
          { PrimaryKey := "stats", RowKey := 5, Status := "success",
            Response := GoAny.string "ok", Error := "" }).2
        2 "5" =
      Except.error errWrongType :=
  ⟨by decide, by decide, rfl, by decide, rfl⟩


end Chronos
